import Mathlib

/-!
# Verification of the mindfulapi scan orchestration and retention subsystem

Shallow embedding of the accessibility-scan service's core logic:

* the rule-help URL generators (`src/services/htmlcs-rule.service.ts`,
  `AxeRuleService` in the same compilation unit),
* the scanner pipeline (`HtmlcsAccessibilityScanner.scan`, `takeScreenshots`,
  `convertKayleIssuesToIssues`, `mapKayleTypeToImpact`) and the shared
  `BaseAccessibilityScanner.filterIssuesByRules`,
* the scan processor state machine (`ScanProcessor.process`,
  `performAccessibilityScan`, `saveIssues`, `updateScanStatus`) and its queue
  boundary (`ScanQueueService.addScanJob`, `ScanJobData`),
* the cleanup / retention engine (`CleanupService.performCleanup`,
  `cleanupDatabase`, `cleanupScreenshotFiles`, `removeFilesInBatches`).

JavaScript strings are Lean `String`s; JS `undefined`-able fields are
`Option`s; thrown exceptions are `Except String`; `Date` values are `Int`
milliseconds since the epoch.  Async effects (database writes, file unlinks,
browser calls) are modelled by explicit state passing of record stores and
by oracle parameters for the external world (browser acquisition, the kayle
engine, per-element screenshot capture, per-issue persistence outcome).
-/

/-! ## Enumerations (`src/enums`) -/

/-- Source `ScanStatus` from `scan-status.enum.ts`: 'pending' | 'running' |
'completed' | 'failed'. -/
inductive ScanStatus where
  | pending
  | running
  | completed
  | failed
deriving DecidableEq, Repr

/-- Source `IssueImpact` from `issue-impact.enum.ts`: 'error' | 'warning' | 'notice'. -/
inductive IssueImpact where
  | error
  | warning
  | notice
deriving DecidableEq, Repr

/-- Source `ScannerType` from `scanner-type.enum.ts`: 'htmlcs' | 'axe';
`DEFAULT_SCANNER_TYPE = htmlcs`. -/
inductive ScannerType where
  | htmlcs
  | axe
deriving DecidableEq, Repr

/-! ## HtmlcsRuleService (`src/services/htmlcs-rule.service.ts`)

The service is purely algorithmic string processing.  JS regexes over the
ASCII classes `[A-Z]` and `\d` are embedded as character-list scanners;
`Char.isUpper` / `Char.isDigit` coincide with those classes on ASCII. -/

/-- Match a literal character sequence at the head of the input, returning
the remainder.  (Shared helper for the JS `startsWith`, `endsWith` and
anchored-regex embeddings; `String.startsWith` itself does not reduce in
the kernel, so string scanning is done on `List Char`.) -/
def dropLit : List Char → List Char → Option (List Char)
  | [], cs => some cs
  | _ :: _, [] => none
  | l :: ls, c :: cs => if c = l then dropLit ls cs else none

/-- JS `s.startsWith(p)`. -/
def jsStartsWith (s p : String) : Bool := (dropLit p.data s.data).isSome

/-- JS `s.endsWith(p)`. -/
def jsEndsWith (s p : String) : Bool :=
  (dropLit p.data.reverse s.data.reverse).isSome

namespace HtmlcsRuleService

/-- The constant `baseUrl` of `generateUrlForTechnique`. -/
def baseUrl : String := "https://www.w3.org/WAI/WCAG21/Techniques"

/-- Source `generateUrlForTechnique(technique)`: the chain of `startsWith` checks,
in source order; `null` (here `none`) when no category letter matches. -/
def generateUrlForTechnique (technique : String) : Option String :=
  if jsStartsWith technique "G" then some (baseUrl ++ "/general/" ++ technique)
  else if jsStartsWith technique "H" then some (baseUrl ++ "/html/" ++ technique)
  else if jsStartsWith technique "ARIA" then some (baseUrl ++ "/aria/" ++ technique)
  else if jsStartsWith technique "C" then some (baseUrl ++ "/css/" ++ technique)
  else if jsStartsWith technique "SCR" then
    some (baseUrl ++ "/client-side-script/" ++ technique)
  else if jsStartsWith technique "F" then some (baseUrl ++ "/failures/" ++ technique)
  else if jsStartsWith technique "T" then some (baseUrl ++ "/text/" ++ technique)
  else if jsStartsWith technique "SM" then some (baseUrl ++ "/smil/" ++ technique)
  else if jsStartsWith technique "SL" then some (baseUrl ++ "/silverlight/" ++ technique)
  else none

/-- Source `ruleId.replace(/^WCAG2A{1,3}\./, '')`.  The greedy `A{1,3}` followed by
a literal dot is equivalent to this three-way cascade on prefixes. -/
def stripWcag (ruleId : String) : String :=
  match dropLit "WCAG2AAA.".data ruleId.data with
  | some rest => String.mk rest
  | none =>
    match dropLit "WCAG2AA.".data ruleId.data with
    | some rest => String.mk rest
    | none =>
      match dropLit "WCAG2A.".data ruleId.data with
      | some rest => String.mk rest
      | none => ruleId

/-- Match `\d+` at the head of the input (greedy; every use site is followed
by a non-digit literal, so greedy matching equals regex backtracking). -/
def digits1 (cs : List Char) : Option (List Char) :=
  match cs.takeWhile Char.isDigit with
  | [] => none
  | _ :: _ => some (cs.dropWhile Char.isDigit)

/-- The anchored part `^Principle\d+\.Guideline\d+_\d+\.\d+_\d+_\d+\.` of the
regex in `extractTechniquesFromPrincipleRule`; returns the remaining
characters (the input to the capture group `(.+)$`). -/
def matchGuideline (cs : List Char) : Option (List Char) := do
  let cs ← dropLit "Principle".data cs
  let cs ← digits1 cs
  let cs ← dropLit ".Guideline".data cs
  let cs ← digits1 cs
  let cs ← dropLit "_".data cs
  let cs ← digits1 cs
  let cs ← dropLit ".".data cs
  let cs ← digits1 cs
  let cs ← dropLit "_".data cs
  let cs ← digits1 cs
  let cs ← dropLit "_".data cs
  let cs ← digits1 cs
  let cs ← dropLit ".".data cs
  pure cs

/-- One pass of the global regex `/([A-Z]+\d*)/g`: scan left to right; at an
uppercase letter take the maximal run of uppercase letters then the maximal
run of digits.  The fuel is the input length (each step consumes at least
one character), which makes the recursion structural. -/
def scanTechniquesAux : Nat → List Char → List String
  | 0, _ => []
  | _ + 1, [] => []
  | fuel + 1, c :: rest =>
    if c.isUpper then
      let ups := rest.takeWhile Char.isUpper
      let afterUps := rest.dropWhile Char.isUpper
      let ds := afterUps.takeWhile Char.isDigit
      let afterDs := afterUps.dropWhile Char.isDigit
      String.mk (c :: (ups ++ ds)) :: scanTechniquesAux fuel afterDs
    else
      scanTechniquesAux fuel rest

/-- All matches of `/([A-Z]+\d*)/g` in the input. -/
def scanTechniques (cs : List Char) : List String :=
  scanTechniquesAux cs.length cs

/-- Source `[...new Set(techniques)]`: drop duplicates keeping the first occurrence
(JS `Set` preserves insertion order). -/
def jsSetDedupAux : List String → List String → List String
  | _, [] => []
  | seen, a :: t =>
    if seen.contains a then jsSetDedupAux seen t
    else a :: jsSetDedupAux (a :: seen) t

/-- Deduplication with first-occurrence order, as `[...new Set(l)]`. -/
def jsSetDedup (l : List String) : List String := jsSetDedupAux [] l

/-- JS `s.split(',')` on a character list: pieces between commas, keeping
empty pieces (so `"".split(',') = [""]` and `"a,".split(',') = ["a",""]`). -/
def splitComma : List Char → List Char → List (List Char)
  | acc, [] => [acc.reverse]
  | acc, c :: cs =>
    if c = ',' then acc.reverse :: splitComma [] cs
    else splitComma (c :: acc) cs

/-- Source `extractTechniquesFromPrincipleRule(ruleId)`: match the Principle/
Guideline shape, split the captured technique part on commas, collect all
`[A-Z]+\d*` tokens of each part, and deduplicate.  The capture `(.+)$`
requires a nonempty remainder without a newline (JS `.` does not match
`\n` and `$` is the end of input without the `m` flag). -/
def extractTechniquesFromPrincipleRule (ruleId : String) : List String :=
  match matchGuideline ruleId.data with
  | none => []
  | some rest =>
    if rest.isEmpty || rest.any (· = '\n') then []
    else
      let parts := splitComma [] rest
      jsSetDedup ((parts.map (fun part => scanTechniques part)).flatten)

/-- Source `extractTechniquesFromSimpleRule(ruleId)`: the anchored
`^([A-Z]+\d+)` — a nonempty maximal run of uppercase letters followed by a
nonempty run of digits at the start of the rule id. -/
def extractTechniquesFromSimpleRule (ruleId : String) : List String :=
  let cs := ruleId.data
  let ups := cs.takeWhile Char.isUpper
  let afterUps := cs.dropWhile Char.isUpper
  let ds := afterUps.takeWhile Char.isDigit
  if ups.isEmpty || ds.isEmpty then [] else [String.mk (ups ++ ds)]

/-- Source `generateHelpUrlsFromRuleId(ruleId)`: strip the WCAG prefix, extract
techniques by rule shape, generate a URL per recognized technique (the
source pushes only non-null URLs, i.e. `filterMap`). -/
def generateHelpUrlsFromRuleId (ruleId : String) : List String :=
  let normalizedId := stripWcag ruleId
  let techniques :=
    if jsStartsWith normalizedId "Principle" then
      extractTechniquesFromPrincipleRule normalizedId
    else
      extractTechniquesFromSimpleRule normalizedId
  techniques.filterMap generateUrlForTechnique

/-- Source `getHelpUrls(ruleId)`: generated URLs, or the fixed fallback URL when
none could be generated. -/
def getHelpUrls (ruleId : String) : List String :=
  let generatedUrls := generateHelpUrlsFromRuleId ruleId
  if generatedUrls.length = 0 then ["https://www.w3.org/WAI/WCAG21/Techniques/"]
  else generatedUrls

end HtmlcsRuleService

/-! ## AxeRuleService (same compilation unit as `htmlcs-rule.service.ts`) -/

namespace AxeRuleService

/-- Source `AXE_BASE_URL`. -/
def AXE_BASE_URL : String := "https://dequeuniversity.com/rules/axe/4.6"

/-- Source `getHelpUrls(ruleId)`: `if (!ruleId) return [];` — for a string parameter
the only falsy value is the empty string — otherwise the single
concatenated Deque University URL. -/
def getHelpUrls (ruleId : String) : List String :=
  if ruleId = "" then [] else [AXE_BASE_URL ++ "/" ++ ruleId]

end AxeRuleService

/-! ## Issue records

`KayleIssue` is the engine's raw issue (`Issue` from the `kayle` package:
`code`, `message`, `type`, `selector`, `context`); the severity `type` is
kept as a string so that `mapKayleTypeToImpact`'s hard-error default branch
is representable.  `IssueEntity` is the persisted `Partial<Issue>` shape
built by `convertKayleIssuesToIssues`. -/

structure KayleIssue where
  code : String
  message : String
  ktype : String
  selector : Option String
  context : Option String
deriving DecidableEq, Repr

/-- JS truthiness test `!x` for an optional string: `undefined`/`null` or
the empty string are falsy. -/
def falsyStr : Option String → Bool
  | none => true
  | some s => s = ""

/-- JS `x || undefined`. -/
def orUndefined (x : Option String) : Option String :=
  if falsyStr x then none else x

/-- The persisted issue shape (`Partial<Issue>` of `issue.entity.ts`). -/
structure IssueEntity where
  ruleId : String
  description : String
  impact : IssueImpact
  selector : Option String
  context : Option String
  screenshotFilename : Option String
deriving DecidableEq, Repr

/-! ## Scan options and the queue boundary -/

/-- Source `ScanOptions` (`src/interfaces`): the fields the core logic reads.
`headers`, `basicAuth` and `clipDir` only configure the browser context /
storage location and are not modelled. -/
structure ScanOptions where
  timeout : Option Nat
  ruleIds : Option (List String)
  rootElement : Option String
deriving DecidableEq, Repr

/-- Source `ScanJobData` (`scan-queue.service.ts`): the queue payload.  It has
exactly these five fields — in particular no rule-identifier list. -/
structure ScanJobData where
  scanId : Nat
  url : String
  language : String
  rootElement : Option String
  scannerType : Option ScannerType
deriving DecidableEq, Repr

namespace ScanQueueService

/-- Source `addScanJob(scanId, url, language, rootElement?, scannerType?)`: builds
the queued `ScanJobData`, defaulting the scanner with
`scannerType || ScannerType.HTMLCS`.

The call site `ScanService.create` (`scan.service.ts`) passes
`createScanDto.ruleIds` as a sixth argument, but this signature declares
only the five parameters above, so JavaScript silently discards the rule
allow-list at the queue boundary. -/
def addScanJob (scanId : Nat) (url language : String)
    (rootElement : Option String) (scannerType : Option ScannerType) :
    ScanJobData :=
  { scanId, url, language, rootElement,
    scannerType := some (scannerType.getD ScannerType.htmlcs) }

end ScanQueueService

/-- Source `CreateScanDto` (`dto/create-scan.dto.ts`). -/
structure CreateScanDto where
  url : String
  language : Option String
  rootElement : Option String
  scannerType : Option ScannerType
  ruleIds : Option (List String)
deriving DecidableEq, Repr

namespace ScanService

/-- The queueing step of `ScanService.create(createScanDto)`: language and
scanner default as in the source
(`createScanDto.language || DEFAULT_LANGUAGE`,
`createScanDto.scannerType || DEFAULT_SCANNER_TYPE`), then
`addScanJob(savedScan.id, url, language, rootElement, scannerType,
createScanDto.ruleIds)` — whose sixth argument the callee drops. -/
def createJob (scanId : Nat) (dto : CreateScanDto) : ScanJobData :=
  ScanQueueService.addScanJob scanId dto.url (dto.language.getD "en")
    dto.rootElement (some (dto.scannerType.getD ScannerType.htmlcs))

end ScanService

/-! ## BaseAccessibilityScanner (`base-accessibility-scanner.service.ts`) -/

namespace BaseAccessibilityScanner

/-- Source `filterIssuesByRules(kayleIssues, ruleIds?)`: with no list or an empty
list all issues are returned unchanged, otherwise only issues whose `code`
is in the list. -/
def filterIssuesByRules (kayleIssues : List KayleIssue)
    (ruleIds : Option (List String)) : List KayleIssue :=
  match ruleIds with
  | none => kayleIssues
  | some rids =>
    if rids.isEmpty then kayleIssues
    else kayleIssues.filter (fun issue => rids.contains issue.code)

end BaseAccessibilityScanner

/-! ## HtmlcsAccessibilityScanner (`htmlcs-accessibility-scanner.service.ts`)

The browser, the kayle engine run and per-element screenshot capture are
external; they enter as oracles: `engine` is the outcome of
`kayle(kayleOptions, true)`, `pageOpen` the `page.evaluate(document.readyState)`
probe, and `capture i` the outcome of `element.screenshot(...)` for issue
`i` (`some fileName` on success — the generated UUID filename — and `none`
when the 5s-timeout capture throws).  `takeScreenshots` in
`BaseAccessibilityScanner` is a verbatim copy of the same method. -/

namespace HtmlcsAccessibilityScanner

/-- The skip test of `takeScreenshots`:
`!issue.selector || issue.selector === 'html' || issue.selector === 'body'`. -/
def skipSelector (sel : Option String) : Bool :=
  match sel with
  | none => true
  | some s => s = "" || s = "html" || s = "body"

/-- The per-issue loop of `takeScreenshots`: every issue is pushed exactly
once; non-trivial selectors get `capture`'s outcome, the catch block turns
a capture failure into a kept issue with no filename. -/
def takeScreenshotsLoop (capture : KayleIssue → Option String) :
    List KayleIssue → List (KayleIssue × Option String)
  | [] => []
  | i :: rest =>
    if skipSelector i.selector then
      (i, none) :: takeScreenshotsLoop capture rest
    else
      (i, capture i) :: takeScreenshotsLoop capture rest

/-- Source `takeScreenshots(page, kayleIssues, screenshotDir)`: if the page probe
throws, all issues are returned without screenshots; otherwise the loop. -/
def takeScreenshots (capture : KayleIssue → Option String) (pageOpen : Bool)
    (kayleIssues : List KayleIssue) : List (KayleIssue × Option String) :=
  if pageOpen then takeScreenshotsLoop capture kayleIssues
  else kayleIssues.map (fun i => (i, none))

/-- Source `mapKayleTypeToImpact(kayleType)`: the three known severities, and the
default branch's thrown `Error` for anything else. -/
def mapKayleTypeToImpact (kayleType : String) : Except String IssueImpact :=
  if kayleType = "error" then .ok IssueImpact.error
  else if kayleType = "warning" then .ok IssueImpact.warning
  else if kayleType = "notice" then .ok IssueImpact.notice
  else .error ("Unknown Kayle issue type: \"" ++ kayleType ++
    "\". Expected one of: \"error\", \"warning\", \"notice\"")

/-- The per-issue loop of `convertKayleIssuesToIssues`; the first
unrecognized severity aborts the whole conversion (the loop body throws).
For the empty input the early return yields `[]`, which coincides with the
loop's base case. -/
def convertLoop :
    List (KayleIssue × Option String) → Except String (List IssueEntity)
  | [] => .ok []
  | (i, shot) :: rest =>
    match mapKayleTypeToImpact i.ktype with
    | .error e => .error e
    | .ok impact =>
      match convertLoop rest with
      | .error e => .error e
      | .ok tail =>
        .ok ({ ruleId := i.code, description := i.message, impact,
               selector := orUndefined i.selector,
               context := orUndefined i.context,
               screenshotFilename := orUndefined shot } :: tail)

/-- Source `convertKayleIssuesToIssues(kayleIssues)`. -/
def convertKayleIssuesToIssues
    (kayleIssues : List (KayleIssue × Option String)) :
    Except String (List IssueEntity) :=
  convertLoop kayleIssues

/-- Source `scan(url, browser, options)` after the kayle run: screenshots then
conversion.  The outer catch wraps any thrown message in
`Accessibility scan failed: ...`.  `options` configures only the browser
context (basic auth, extra headers) in the source — in particular no rule
filtering of the engine's issue list happens anywhere in this scanner. -/
def scan (options : ScanOptions) (engine : Except String (List KayleIssue))
    (capture : KayleIssue → Option String) (pageOpen : Bool) :
    Except String (List IssueEntity) :=
  match engine with
  | .error e => .error ("Accessibility scan failed: " ++ e)
  | .ok raw =>
    match convertKayleIssuesToIssues (takeScreenshots capture pageOpen raw) with
    | .error e => .error ("Accessibility scan failed: " ++ e)
    | .ok issues => .ok issues

end HtmlcsAccessibilityScanner

/-! ## AccessibilityScannerFactory
(`accessibility-scanner-factory.service.ts`) -/

namespace AccessibilityScannerFactory

/-- Source `getScanner(scannerType = DEFAULT_SCANNER_TYPE)`: dispatch on the
discriminator; an `undefined` argument selects the HTMLCS default.  (The
`default:` throw is unreachable for the two-value enum.) -/
def getScanner (scannerType : Option ScannerType) : ScannerType :=
  scannerType.getD ScannerType.htmlcs

end AccessibilityScannerFactory

/-! ## ScanProcessor (`scan.processor.ts`)

The relational store visible to the processor is `ProcDB`: the scans table
projected to `(id, status)` plus the rows written by `saveIssues`.  The
external world of one attempt is a `ScanWorld` of oracles: browser
acquisition, the kayle run, the page probe, per-issue screenshot capture,
the axe scanner's outcome (its source file is not part of the dump; the
processor only forwards its promise), and the per-row outcome of
`issueRepository.save`. -/

structure ProcDB where
  statuses : List (Nat × ScanStatus)
  saved : List (Nat × IssueEntity)
deriving DecidableEq, Repr

structure ScanWorld where
  getBrowser : Except String Unit
  htmlcsEngine : Except String (List KayleIssue)
  capture : KayleIssue → Option String
  pageOpen : Bool
  axeScan : Except String (List IssueEntity)
  persist : IssueEntity → Except String Unit

namespace ScanProcessor

/-- Source `updateScanStatus(scanId, status)`:
`scanRepository.update(scanId, { status })` — an unconditional `UPDATE`
of the status column for the matching id (a no-op when no row matches). -/
def updateScanStatus (db : ProcDB) (scanId : Nat) (status : ScanStatus) :
    ProcDB :=
  { db with
    statuses := db.statuses.map
      (fun p => if p.1 = scanId then (p.1, status) else p) }

/-- The stored status of a scan (first row with the id). -/
def lookupStatus (db : ProcDB) (scanId : Nat) : Option ScanStatus :=
  db.statuses.lookup scanId

/-- The option build in `performAccessibilityScan`:
`{ timeout: 30000 }` plus `rootElement` only when truthy.  No `ruleIds`
entry is ever added. -/
def buildScanOptions (job : ScanJobData) : ScanOptions :=
  { timeout := some 30000, ruleIds := none,
    rootElement := orUndefined job.rootElement }

/-- Source `saveIssues(scanId, partialIssues)`: one `save` per issue, in order;
the first failing write aborts the loop (prior writes stay). -/
def saveIssues (persist : IssueEntity → Except String Unit) (db : ProcDB)
    (scanId : Nat) : List IssueEntity → ProcDB × Except String Unit
  | [] => (db, .ok Unit.unit)
  | i :: rest =>
    match persist i with
    | .error e => (db, .error e)
    | .ok _ =>
      saveIssues persist { db with saved := db.saved ++ [(scanId, i)] }
        scanId rest

/-- The scanner invocation `scanner.scan(url, browser, scanOptions)` after
factory dispatch. -/
def scannerResult (w : ScanWorld) (job : ScanJobData) :
    Except String (List IssueEntity) :=
  match AccessibilityScannerFactory.getScanner job.scannerType with
  | ScannerType.htmlcs =>
    HtmlcsAccessibilityScanner.scan (buildScanOptions job) w.htmlcsEngine
      w.capture w.pageOpen
  | ScannerType.axe => w.axeScan

/-- Source `performAccessibilityScan(scanId, url, rootElement?, scannerType?)`:
browser acquisition, factory dispatch, scanner run, then `saveIssues`;
any failure is re-thrown to the caller. -/
def performAccessibilityScan (w : ScanWorld) (db : ProcDB)
    (job : ScanJobData) : ProcDB × Except String Unit :=
  match w.getBrowser with
  | .error e => (db, .error e)
  | .ok _ =>
    match scannerResult w job with
    | .error e => (db, .error e)
    | .ok partialIssues => saveIssues w.persist db job.scanId partialIssues

/-- The outcome of one `process(job)` attempt: the store after the attempt,
the ordered status writes performed for `job.scanId`, and the settled
promise (`.error e` = the re-thrown exception handed to BullMQ). -/
structure ProcessResult where
  db : ProcDB
  statusWrites : List ScanStatus
  outcome : Except String Unit
deriving Repr

/-- Source `process(job)`: persist RUNNING, run the scan work, then COMPLETED on
success; the catch block persists FAILED and re-throws the same error. -/
def process (w : ScanWorld) (db : ProcDB) (job : ScanJobData) :
    ProcessResult :=
  match performAccessibilityScan w
      (updateScanStatus db job.scanId ScanStatus.running) job with
  | (db2, .error e) =>
    { db := updateScanStatus db2 job.scanId ScanStatus.failed,
      statusWrites := [ScanStatus.running, ScanStatus.failed],
      outcome := .error e }
  | (db2, .ok _) =>
    { db := updateScanStatus db2 job.scanId ScanStatus.completed,
      statusWrites := [ScanStatus.running, ScanStatus.completed],
      outcome := .ok Unit.unit }

end ScanProcessor

/-! ## CleanupService (`cleanup.service.ts`)

The store visible to cleanup is `CleanupState`: the scans table projected
to `(id, createdAt)`, the issues table projected to
`(id, scanId, screenshotFilename)`, the listing of the screenshot
directory, and whether that directory exists.  Timestamps are integer
milliseconds; `cutoffDate.setDate(getDate() - retentionDays)` is calendar
day arithmetic, embedded as a fixed 86,400,000 ms per day.  File unlinks
are modelled as succeeding (`removeFilesInBatches` counts successes and
tolerates failures; the idempotence and frame theorems below are about the
deterministic success path). -/

/-- A row of the scans table as cleanup sees it. -/
structure ScanRec where
  id : Nat
  createdAt : Int
deriving DecidableEq, Repr

/-- A row of the issues table as cleanup sees it. -/
structure IssueRec where
  id : Nat
  scanId : Nat
  screenshotFilename : Option String
deriving DecidableEq, Repr

/-- The database ∪ filesystem state swept by the cleanup engine. -/
structure CleanupState where
  scans : List ScanRec
  issues : List IssueRec
  files : List String
  dirExists : Bool
deriving DecidableEq, Repr

namespace CleanupService

/-- Source `CLEANUP_BATCH_SIZE` default (`parseInt(process.env.CLEANUP_BATCH_SIZE
|| '1000')`). -/
def batchSize : Nat := 1000

/-- Source `CLEANUP_CONCURRENCY_LIMIT` default. -/
def concurrencyLimit : Nat := 10

/-- The cutoff computation at the top of `performCleanup`:
retention 0 is the test mode `now + 1 minute`; otherwise
`setDate(getDate() - retentionDays)`. -/
def cutoffDate (now : Int) (retentionDays : Nat) : Int :=
  if retentionDays = 0 then now + 60 * 1000
  else now - retentionDays * 86400000

/-- The eligibility predicate `createdAt: LessThan(cutoffDate)` (strict). -/
def eligible (cutoff : Int) (s : ScanRec) : Bool := s.createdAt < cutoff

/-- The scans `find({ where: createdAt < cutoff })` returns, in table
order. -/
def eligScans (st : CleanupState) (cutoff : Int) : List ScanRec :=
  st.scans.filter (eligible cutoff)

/-- The issue count of `cleanupDatabase`:
`issues innerJoin scan where scan.createdAt < cutoff`. -/
def joinedIssueCount (st : CleanupState) (cutoff : Int) : Nat :=
  (st.issues.filter
    (fun i => (eligScans st cutoff).any (fun s => s.id = i.scanId))).length

/-- Source `scanRepository.delete(scanIds)` with the `ON DELETE CASCADE` foreign
key: the named scans and all their issues disappear. -/
def deleteByIds (st : CleanupState) (ids : List Nat) : CleanupState :=
  { st with
    scans := st.scans.filter (fun s => ! ids.contains s.id),
    issues := st.issues.filter (fun i => ! ids.contains i.scanId) }

/-- The batched deletion loop of `cleanupDatabase`: re-fetch up to
`batchSize` eligible scan ids, delete them (cascading), and repeat.  The
source loops `while (totalScansRemoved < scanCount)` with a break on an
empty batch; since every non-final iteration removes at least one scan,
`scanCount` iterations of fuel bound the loop exactly as the source's
condition does.  `deleteResult.affected` is the batch length (all fetched
ids exist). -/
def dbCleanupLoop : Nat → CleanupState → Int → CleanupState × Nat
  | 0, st, _ => (st, 0)
  | fuel + 1, st, cutoff =>
    let batch := (eligScans st cutoff).take batchSize
    if batch.isEmpty then (st, 0)
    else
      let ids := batch.map (fun s => s.id)
      let st1 := deleteByIds st ids
      let r := dbCleanupLoop fuel st1 cutoff
      (r.1, batch.length + r.2)

/-- Source `cleanupDatabase(cutoffDate)`: early return when nothing is eligible,
otherwise pre-count the joined issues, run the batched deletion loop, and
report `{ scansRemoved, issuesRemoved }` (note `issuesRemoved` is the
pre-deletion count). -/
def cleanupDatabase (st : CleanupState) (cutoff : Int) :
    CleanupState × Nat × Nat :=
  let scanCount := (eligScans st cutoff).length
  if scanCount = 0 then (st, 0, 0)
  else
    let issueCount := joinedIssueCount st cutoff
    let r := dbCleanupLoop scanCount st cutoff
    (r.1, r.2, issueCount)

/-- Whether any issue row references the filename
(`issue.screenshotFilename IN (:...filenames)` membership for a file of
the current batch). -/
def referenced (issues : List IssueRec) (file : String) : Bool :=
  issues.any (fun i => i.screenshotFilename = some file)

/-- The per-batch loop of `cleanupScreenshotFiles` over the initial
directory listing: slice `batchSize` files, mark the ones no issue
references as orphaned, and delete them (`removeFilesInBatches`, all
unlinks succeeding).  Returns (filesRemoved, orphanedFiles, deleted
names).  Fuel is the listing length: every iteration consumes at least
one file. -/
def fileCleanupLoop (issues : List IssueRec) :
    Nat → List String → Nat × Nat × List String
  | 0, _ => (0, 0, [])
  | _ + 1, [] => (0, 0, [])
  | fuel + 1, f :: fs =>
    let batch := (f :: fs).take batchSize
    let rest := (f :: fs).drop batchSize
    let orphanedInBatch := batch.filter (fun x => ! referenced issues x)
    let r := fileCleanupLoop issues fuel rest
    (orphanedInBatch.length + r.1, orphanedInBatch.length + r.2.1,
      orphanedInBatch ++ r.2.2)

/-- Source `cleanupScreenshotFiles()`: skip when the directory is missing, list
it, keep only `*.png` names, and run the batch loop; deleted files leave
the directory listing. -/
def cleanupScreenshotFiles (st : CleanupState) :
    CleanupState × Nat × Nat :=
  if ¬ st.dirExists then (st, 0, 0)
  else
    let screenshotFiles := st.files.filter (fun f => jsEndsWith f ".png")
    if screenshotFiles.isEmpty then (st, 0, 0)
    else
      let r := fileCleanupLoop st.issues screenshotFiles.length screenshotFiles
      ({ st with files := st.files.filter (fun f => ! r.2.2.contains f) },
        r.1, r.2.1)

/-- The directory listing restricted to screenshots:
`files.filter(file => file.endsWith('.png'))`. -/
def pngFiles (st : CleanupState) : List String :=
  st.files.filter (fun f => jsEndsWith f ".png")

/-- The orphaned screenshots of a state: the `*.png` files no issue row
references.  (The source computes this per batch; the batch union equals
this global filter — proved below.) -/
def orphanFiles (st : CleanupState) : List String :=
  (pngFiles st).filter (fun f => ! referenced st.issues f)

/-- The logged summary of one `performCleanup` run, together with the
resulting store: phase 1 (`cleanupDatabase`) then phase 2
(`cleanupScreenshotFiles`) on the phase-1 state. -/
structure CleanupRun where
  state : CleanupState
  scansRemoved : Nat
  issuesRemoved : Nat
  filesRemoved : Nat
  orphanedFiles : Nat
deriving DecidableEq, Repr

/-- The proven net effect of phase 1 on the store: eligible scans deleted,
their issues cascaded away (the characterization established for
`cleanupDatabase` below). -/
def dbCleanedState (st : CleanupState) (cutoff : Int) : CleanupState :=
  { st with
    scans := st.scans.filter (fun s => ! eligible cutoff s),
    issues := st.issues.filter (fun i =>
      ! (eligScans st cutoff).any (fun s => s.id == i.scanId)) }

/-- The effects and logged statistics of `performCleanup()`. -/
def performCleanupEffects (retentionDays : Nat) (st : CleanupState)
    (now : Int) : CleanupRun :=
  let cutoff := cutoffDate now retentionDays
  let db := cleanupDatabase st cutoff
  let fileStats := cleanupScreenshotFiles db.1
  { state := fileStats.1,
    scansRemoved := db.2.1,
    issuesRemoved := db.2.2,
    filesRemoved := fileStats.2.1,
    orphanedFiles := fileStats.2.2 }

/-- Source `performCleanup(): Promise<void>` — the entry point invoked by the
scheduler and by `triggerManualCleanup`.  The four statistics are computed
and logged inside the method, and the promise resolves with `undefined`:
the second component is the resolved value. -/
def performCleanup (retentionDays : Nat) (st : CleanupState) (now : Int) :
    CleanupState × Unit :=
  ((performCleanupEffects retentionDays st now).state, Unit.unit)

end CleanupService

/-! ## Concrete fixtures used by the claim theorems and witnesses -/

/-- The failing input for C1: a scan created with a rule allow-list. -/
def c1Dto : CreateScanDto :=
  { url := "https://example.com", language := none, rootElement := none,
    scannerType := none, ruleIds := some ["color-contrast"] }

/-- An engine issue whose rule is *not* in `c1Dto`'s allow-list. -/
def c1RawIssue : KayleIssue :=
  { code := "image-alt", message := "Images must have alternate text",
    ktype := "error", selector := some "img", context := some "<img>" }

/-- The world of a retried attempt whose navigation times out again. -/
def c4World : ScanWorld :=
  { getBrowser := .ok Unit.unit,
    htmlcsEngine := .error "page.goto: Timeout 30000ms exceeded",
    capture := fun _ => none, pageOpen := true,
    axeScan := .error "unused", persist := fun _ => .ok Unit.unit }

/-- The retried job for scan 1. -/
def c4Job : ScanJobData :=
  ScanQueueService.addScanJob 1 "https://example.com" "en" none none

/-- The world of a scan whose engine run fails. -/
def c2World : ScanWorld :=
  { getBrowser := .ok Unit.unit, htmlcsEngine := .error "net boom",
    capture := fun _ => none, pageOpen := true,
    axeScan := .error "unused", persist := fun _ => .ok Unit.unit }

/-- A store holding the pending scan 1. -/
def c2Db : ProcDB := ⟨[(1, ScanStatus.pending)], []⟩

/-- The queued job for scan 1. -/
def c2Job : ScanJobData :=
  ScanQueueService.addScanJob 1 "https://example.com" "en" none none

/-- The world of a scan of a clean page: the engine reports no issues. -/
def c3World : ScanWorld :=
  { getBrowser := .ok Unit.unit, htmlcsEngine := .ok [],
    capture := fun _ => none, pageOpen := true,
    axeScan := .error "unused", persist := fun _ => .ok Unit.unit }

/-- A store holding the pending scan 7 and one pre-existing issue row. -/
def c3Db : ProcDB :=
  ⟨[(7, ScanStatus.pending)],
    [(5, { ruleId := "r", description := "d", impact := IssueImpact.notice,
           selector := none, context := none, screenshotFilename := none })]⟩

/-- The queued job for scan 7. -/
def c3Job : ScanJobData :=
  ScanQueueService.addScanJob 7 "https://example.com/clean" "en" none none

/-- The per-issue screenshot outcome of `takeScreenshots`. -/
def shotOf (capture : KayleIssue → Option String) (pageOpen : Bool)
    (i : KayleIssue) : Option String :=
  if pageOpen then
    (if HtmlcsAccessibilityScanner.skipSelector i.selector then none
     else capture i)
  else none

/-- The issue used by the C6 witness. -/
def c6Issue : KayleIssue :=
  { code := "WCAG2AA.Principle1.Guideline1_1.1_1_1.H37",
    message := "Img element missing an alt attribute", ktype := "error",
    selector := some "img:nth-child(1)", context := some "<img>" }

/-- The scan options used by the C6 witness. -/
def c6Opts : ScanOptions :=
  { timeout := some 30000, ruleIds := none, rootElement := none }

/-- A store holding one month-old scan. -/
def c7State : CleanupState :=
  { scans := [{ id := 1, createdAt := 0 }], issues := [], files := [],
    dirExists := false }

/-- The empty store. -/
def cleanupEmptyState : CleanupState :=
  { scans := [], issues := [], files := [], dirExists := false }

/-- The store used by the C7/C8/C9 witnesses: one old scan with one issue
referencing a screenshot, one orphaned screenshot, one foreign file. -/
def c7WitnessState : CleanupState :=
  { scans := [{ id := 1, createdAt := 0 }],
    issues := [{ id := 1, scanId := 1, screenshotFilename := some "a.png" }],
    files := ["a.png", "b.png", "c.txt"], dirExists := true }

example :
    HtmlcsRuleService.getHelpUrls "WCAG2AA.Principle1.Guideline1_1.1_1_1.G73,G74"
      = ["https://www.w3.org/WAI/WCAG21/Techniques/general/G73",
         "https://www.w3.org/WAI/WCAG21/Techniques/general/G74"] := by
  decide

example : HtmlcsRuleService.getHelpUrls "AltVersion"
    = ["https://www.w3.org/WAI/WCAG21/Techniques/"] := by decide

example : HtmlcsRuleService.getHelpUrls "H49.AlignAttr"
    = ["https://www.w3.org/WAI/WCAG21/Techniques/html/H49"] := by decide


/-! ## List lemmas for the cleanup proofs -/

/-- If no element of `l` satisfies `p`, filtering by `!p` keeps all of `l`. -/
theorem filter_not_of_filter_eq_nil {α : Type} (p : α → Bool) (l : List α)
    (h : l.filter p = []) : l.filter (fun a => ! p a) = l := by
  refine List.filter_eq_self.mpr (fun a ha => ?_)
  have := List.filter_eq_nil_iff.mp h a ha
  simp only [Bool.not_eq_true] at this
  simp [this]

/-- Deleting (by key) the first `n` elements of a key-nodup list is
`List.drop n`: the batched delete-by-id step of the cleanup loop. -/
theorem filter_not_contains_take {α : Type} (f : α → Nat) :
    ∀ (n : Nat) (l : List α), (l.map f).Nodup →
      l.filter (fun x => ! ((l.take n).map f).contains (f x)) = l.drop n := by
  intro n l
  induction l generalizing n with
  | nil => intro _; simp
  | cons a t ih =>
    intro hnd
    rcases List.nodup_cons.mp hnd with ⟨hfa, hndt⟩
    cases n with
    | zero =>
      simp only [List.take_zero, List.map_nil, List.drop_zero]
      exact List.filter_eq_self.mpr (fun x _ => rfl)
    | succ m =>
      simp only [List.take_succ_cons, List.map_cons, List.drop_succ_cons]
      rw [List.filter_cons]
      have hhead : (! ((f a :: (t.take m).map f).contains (f a))) = false := by
        simp [List.contains]
      rw [hhead]
      simp only [if_neg (by simp : ¬ (false = true))]
      have hcongr : ∀ x ∈ t,
          (! ((f a :: (t.take m).map f).contains (f x)))
            = (! (((t.take m).map f).contains (f x))) := by
        intro x hx
        have hne : (f x == f a) = false := by
          refine Bool.eq_false_iff.mpr (fun hbe => ?_)
          exact hfa (beq_iff_eq.mp hbe ▸ List.mem_map_of_mem f hx)
        have hc : ((f a :: (t.take m).map f).contains (f x))
            = ((f x == f a) || ((t.take m).map f).contains (f x)) := rfl
        rw [hc, hne, Bool.false_or]
      rw [List.filter_congr hcongr]
      exact ih m hndt

/-- When no scan is eligible, the cleanup target state is the state itself. -/
theorem cleanup_target_eq_self_of_no_elig (st : CleanupState) (cutoff : Int)
    (hE : CleanupService.eligScans st cutoff = []) :
    ({ st with
        scans := st.scans.filter (fun s => ! CleanupService.eligible cutoff s),
        issues := st.issues.filter (fun i =>
          ! (CleanupService.eligScans st cutoff).any
              (fun s => s.id == i.scanId)) } : CleanupState) = st := by
  have hscans : st.scans.filter (fun s => ! CleanupService.eligible cutoff s)
      = st.scans :=
    filter_not_of_filter_eq_nil (CleanupService.eligible cutoff) st.scans hE
  have hissues : st.issues.filter (fun i =>
      ! (CleanupService.eligScans st cutoff).any (fun s => s.id == i.scanId))
      = st.issues := by
    rw [hE]
    exact List.filter_eq_self.mpr (fun i _ => rfl)
  rw [hscans, hissues]

/-- Membership in an id list as an `any` over the carrying records. -/
theorem contains_map_id_eq_any (l : List ScanRec) (n : Nat) :
    ((l.map (fun s => s.id)).contains n) = l.any (fun s => s.id == n) := by
  induction l with
  | nil => rfl
  | cons a t ih =>
    have h1 : (((a :: t).map (fun s => s.id)).contains n)
        = ((n == a.id) || ((t.map (fun s => s.id)).contains n)) := rfl
    have h2 : ((a :: t).any (fun s => s.id == n))
        = ((a.id == n) || (t.any (fun s => s.id == n))) := rfl
    rw [h1, h2, ih, Bool.beq_comm]

/-- The net effect of the batched scan-deletion loop, given enough fuel:
all eligible scans are deleted, their issues are cascaded away, nothing
else changes, and the reported count is the number of eligible scans. -/
theorem dbCleanupLoop_spec :
    ∀ (fuel : Nat) (st : CleanupState) (cutoff : Int),
      (st.scans.map (fun s => s.id)).Nodup →
      (CleanupService.eligScans st cutoff).length ≤ fuel →
      (CleanupService.dbCleanupLoop fuel st cutoff).1
          = { st with
              scans := st.scans.filter
                (fun s => ! CleanupService.eligible cutoff s),
              issues := st.issues.filter (fun i =>
                ! (CleanupService.eligScans st cutoff).any
                    (fun s => s.id == i.scanId)) } ∧
      (CleanupService.dbCleanupLoop fuel st cutoff).2
          = (CleanupService.eligScans st cutoff).length := by
  intro fuel
  induction fuel with
  | zero =>
    intro st cutoff hnd hlen
    have hE : CleanupService.eligScans st cutoff = [] :=
      List.eq_nil_of_length_eq_zero (Nat.le_zero.mp hlen)
    rw [cleanup_target_eq_self_of_no_elig st cutoff hE, hE]
    exact ⟨rfl, rfl⟩
  | succ fuel ih =>
    intro st cutoff hnd hlen
    by_cases hE : CleanupService.eligScans st cutoff = []
    · rw [cleanup_target_eq_self_of_no_elig st cutoff hE, hE]
      have hempty : ((CleanupService.eligScans st cutoff).take
          CleanupService.batchSize).isEmpty = true := by
        rw [hE]; rfl
      simp only [CleanupService.dbCleanupLoop, hempty]
      exact ⟨rfl, rfl⟩
    · -- the nonempty-batch step
      have hbatchne : (CleanupService.eligScans st cutoff).take
          CleanupService.batchSize ≠ [] := by
        rw [Ne, List.take_eq_nil_iff]
        simp [hE, CleanupService.batchSize]
      have hempty : ((CleanupService.eligScans st cutoff).take
          CleanupService.batchSize).isEmpty = false := by
        rcases h' : (CleanupService.eligScans st cutoff).take
            CleanupService.batchSize with _ | ⟨a, t⟩
        · exact absurd h' hbatchne
        · rfl
      simp only [CleanupService.dbCleanupLoop, hempty, Bool.false_eq_true,
        if_false]
      set E := CleanupService.eligScans st cutoff with hEdef
      set ids := (E.take CleanupService.batchSize).map (fun s => s.id)
        with hids
      set st1 := CleanupService.deleteByIds st ids with hst1
      have hnd1 : (st1.scans.map (fun s => s.id)).Nodup := by
        rw [hst1]
        exact ((List.filter_sublist st.scans).map _).nodup hnd
      have hndE : (E.map (fun s => s.id)).Nodup := by
        rw [hEdef]
        exact ((List.filter_sublist st.scans).map _).nodup hnd
      have helig1 : CleanupService.eligScans st1 cutoff
          = E.drop CleanupService.batchSize := by
        show (st.scans.filter (fun s => ! ids.contains s.id)).filter
            (CleanupService.eligible cutoff)
          = E.drop CleanupService.batchSize
        rw [List.filter_filter]
        have hcomm : ∀ s ∈ st.scans,
            (CleanupService.eligible cutoff s && ! ids.contains s.id)
              = (! ids.contains s.id && CleanupService.eligible cutoff s) :=
          fun s _ => Bool.and_comm _ _
        rw [List.filter_congr hcomm, ← List.filter_filter]
        rw [hids]
        exact filter_not_contains_take (fun s => s.id)
          CleanupService.batchSize E hndE
      have hlen1 : (CleanupService.eligScans st1 cutoff).length ≤ fuel := by
        rw [helig1, List.length_drop]
        have h1 : 1 ≤ E.length := by
          rcases h' : E with _ | ⟨a, t⟩
          · exact absurd h' hE
          · simp [h']
        have h2 : E.length ≤ fuel + 1 := hlen
        have hbs : (1 : Nat) ≤ CleanupService.batchSize := by
          rw [CleanupService.batchSize]; omega
        omega
      obtain ⟨ihst, ihn⟩ := ih st1 cutoff hnd1 hlen1
      constructor
      · rw [ihst, helig1]
        have hscans : st1.scans.filter
            (fun s => ! CleanupService.eligible cutoff s)
            = st.scans.filter (fun s => ! CleanupService.eligible cutoff s) := by
          rw [hst1]
          show (st.scans.filter (fun s => ! ids.contains s.id)).filter
              (fun s => ! CleanupService.eligible cutoff s)
            = st.scans.filter (fun s => ! CleanupService.eligible cutoff s)
          rw [List.filter_filter]
          refine List.filter_congr (fun s hs => ?_)
          cases helig : CleanupService.eligible cutoff s
          · have hnotin : s.id ∉ ids := by
              intro hin
              rw [hids] at hin
              rcases List.mem_map.mp hin with ⟨s', hs', hid⟩
              have hs'E : s' ∈ E := List.mem_of_mem_take hs'
              have hs'scans : s' ∈ st.scans := by
                rw [hEdef] at hs'E
                exact (List.mem_filter.mp hs'E).1
              have heq : s' = s :=
                List.inj_on_of_nodup_map hnd hs'scans hs hid
              subst heq
              have htrue : CleanupService.eligible cutoff s' = true := by
                rw [hEdef] at hs'E
                exact (List.mem_filter.mp hs'E).2
              rw [helig] at htrue
              exact Bool.false_ne_true htrue
            have hcf : ids.contains s.id = false := by
              refine Bool.eq_false_iff.mpr (fun hc => ?_)
              exact hnotin (List.elem_iff.mp hc)
            simp [hcf, hnotin]
          · simp
        have hissues : st1.issues.filter (fun i =>
              ! (E.drop CleanupService.batchSize).any
                  (fun s => s.id == i.scanId))
            = st.issues.filter (fun i =>
                ! E.any (fun s => s.id == i.scanId)) := by
          rw [hst1]
          show (st.issues.filter (fun i => ! ids.contains i.scanId)).filter
              (fun i => ! (E.drop CleanupService.batchSize).any
                (fun s => s.id == i.scanId))
            = st.issues.filter (fun i => ! E.any (fun s => s.id == i.scanId))
          rw [List.filter_filter]
          refine List.filter_congr (fun i _ => ?_)
          have hsplit : E.any (fun s => s.id == i.scanId)
              = ((E.take CleanupService.batchSize).any
                  (fun s => s.id == i.scanId)
                || (E.drop CleanupService.batchSize).any
                  (fun s => s.id == i.scanId)) := by
            conv =>
              lhs
              rw [← List.take_append_drop CleanupService.batchSize E]
            exact List.any_append
          have hcont : ids.contains i.scanId
              = (E.take CleanupService.batchSize).any
                  (fun s => s.id == i.scanId) := by
            rw [hids]
            exact contains_map_id_eq_any _ _
          rw [hsplit, hcont]
          cases (E.take CleanupService.batchSize).any
              (fun s => s.id == i.scanId) <;>
            cases (E.drop CleanupService.batchSize).any
              (fun s => s.id == i.scanId) <;> rfl
        rw [hscans, hissues]
        rw [hst1]
        rfl
      · rw [ihn, helig1]
        have hlensum : (E.take CleanupService.batchSize).length
            + (E.drop CleanupService.batchSize).length = E.length := by
          rw [← List.length_append, List.take_append_drop]
        rw [← hlensum]

/-- The net effect of `cleanupDatabase`: eligible scans and their issues
are removed, everything else is untouched; `scansRemoved` is the eligible
count and `issuesRemoved` the pre-deletion joined issue count. -/
theorem cleanupDatabase_spec (st : CleanupState) (cutoff : Int)
    (hnd : (st.scans.map (fun s => s.id)).Nodup) :
    (CleanupService.cleanupDatabase st cutoff).1
        = { st with
            scans := st.scans.filter
              (fun s => ! CleanupService.eligible cutoff s),
            issues := st.issues.filter (fun i =>
              ! (CleanupService.eligScans st cutoff).any
                  (fun s => s.id == i.scanId)) } ∧
    (CleanupService.cleanupDatabase st cutoff).2.1
        = (CleanupService.eligScans st cutoff).length ∧
    (CleanupService.cleanupDatabase st cutoff).2.2
        = CleanupService.joinedIssueCount st cutoff := by
  by_cases h0 : (CleanupService.eligScans st cutoff).length = 0
  · have hE : CleanupService.eligScans st cutoff = [] :=
      List.eq_nil_of_length_eq_zero h0
    have hjc : CleanupService.joinedIssueCount st cutoff = 0 := by
      simp [CleanupService.joinedIssueCount, hE]
    simp only [CleanupService.cleanupDatabase, if_pos h0]
    exact ⟨(cleanup_target_eq_self_of_no_elig st cutoff hE).symm, h0.symm,
      hjc.symm⟩
  · obtain ⟨hst, hn⟩ := dbCleanupLoop_spec
      (CleanupService.eligScans st cutoff).length st cutoff hnd (le_refl _)
    simp only [CleanupService.cleanupDatabase, if_neg h0]
    exact ⟨hst, hn, trivial⟩

/-- The net effect of the batched file pass over a directory listing: the
orphan filter distributes over the batches, so removed = orphaned = the
global filter. -/
theorem fileCleanupLoop_spec (issues : List IssueRec) :
    ∀ (fuel : Nat) (l : List String), l.length ≤ fuel →
      CleanupService.fileCleanupLoop issues fuel l
        = ((l.filter (fun f => ! CleanupService.referenced issues f)).length,
           (l.filter (fun f => ! CleanupService.referenced issues f)).length,
           l.filter (fun f => ! CleanupService.referenced issues f)) := by
  intro fuel
  induction fuel with
  | zero =>
    intro l hl
    have : l = [] := List.eq_nil_of_length_eq_zero (Nat.le_zero.mp hl)
    subst this
    rfl
  | succ fuel ih =>
    intro l hl
    cases l with
    | nil => rfl
    | cons f fs =>
      have hbs : (1 : Nat) ≤ CleanupService.batchSize := by
        rw [CleanupService.batchSize]; omega
      have hrest : ((f :: fs).drop CleanupService.batchSize).length ≤ fuel := by
        rw [List.length_drop]
        have := hl
        simp only [List.length_cons] at this
        omega
      have hsplit : (f :: fs).filter
            (fun x => ! CleanupService.referenced issues x)
          = ((f :: fs).take CleanupService.batchSize).filter
              (fun x => ! CleanupService.referenced issues x)
            ++ ((f :: fs).drop CleanupService.batchSize).filter
              (fun x => ! CleanupService.referenced issues x) := by
        rw [← List.filter_append, List.take_append_drop]
      simp only [CleanupService.fileCleanupLoop]
      rw [ih _ hrest, hsplit]
      simp [List.length_append]

/-- The file pass never touches the scans or issues tables nor the
directory-existence flag. -/
theorem cleanupScreenshotFiles_preserves (st : CleanupState) :
    (CleanupService.cleanupScreenshotFiles st).1.scans = st.scans ∧
    (CleanupService.cleanupScreenshotFiles st).1.issues = st.issues ∧
    (CleanupService.cleanupScreenshotFiles st).1.dirExists = st.dirExists := by
  by_cases hd : st.dirExists = true
  · by_cases hpe : (CleanupService.pngFiles st).isEmpty = true
    · simp only [CleanupService.cleanupScreenshotFiles,
        if_neg (show ¬ (¬ st.dirExists = true) by simp [hd])]
      rw [show (st.files.filter (fun f => jsEndsWith f ".png"))
          = CleanupService.pngFiles st from rfl, if_pos hpe]
      refine ⟨?_, ?_, ?_⟩ <;> first | rfl | trivial
    · simp only [CleanupService.cleanupScreenshotFiles,
        if_neg (show ¬ (¬ st.dirExists = true) by simp [hd])]
      rw [show (st.files.filter (fun f => jsEndsWith f ".png"))
          = CleanupService.pngFiles st from rfl, if_neg hpe]
      refine ⟨?_, ?_, ?_⟩ <;> first | rfl | trivial
  · simp only [CleanupService.cleanupScreenshotFiles,
      if_pos (show ¬ st.dirExists = true from hd)]
    refine ⟨?_, ?_, ?_⟩ <;> first | rfl | trivial

/-- The net effect of `cleanupScreenshotFiles` when the directory exists:
exactly the orphaned `*.png` files are deleted and both reported counts
equal the number of orphans. -/
theorem cleanupScreenshotFiles_spec (st : CleanupState)
    (hdir : st.dirExists = true) :
    (CleanupService.cleanupScreenshotFiles st).1.files
        = st.files.filter
            (fun f => ! (CleanupService.orphanFiles st).contains f) ∧
    (CleanupService.cleanupScreenshotFiles st).2.1
        = (CleanupService.orphanFiles st).length ∧
    (CleanupService.cleanupScreenshotFiles st).2.2
        = (CleanupService.orphanFiles st).length := by
  have hnd : ¬ (¬ st.dirExists = true) := by simp [hdir]
  by_cases hpe : (CleanupService.pngFiles st).isEmpty = true
  · have hpnil : CleanupService.pngFiles st = [] := List.isEmpty_iff.mp hpe
    have honil : CleanupService.orphanFiles st = [] := by
      rw [CleanupService.orphanFiles, hpnil]; rfl
    simp only [CleanupService.cleanupScreenshotFiles, if_neg hnd]
    rw [show (st.files.filter (fun f => jsEndsWith f ".png"))
        = CleanupService.pngFiles st from rfl, hpnil]
    simp only [List.isEmpty_nil, if_pos]
    refine ⟨?_, by simp [honil], by simp [honil]⟩
    rw [honil]
    exact (List.filter_eq_self.mpr (fun f _ => rfl)).symm
  · simp only [CleanupService.cleanupScreenshotFiles, if_neg hnd]
    rw [show (st.files.filter (fun f => jsEndsWith f ".png"))
        = CleanupService.pngFiles st from rfl]
    rw [if_neg hpe]
    rw [fileCleanupLoop_spec st.issues (CleanupService.pngFiles st).length
      (CleanupService.pngFiles st) (le_refl _)]
    exact ⟨rfl, rfl, rfl⟩

/-- The database loop never touches the filesystem components. -/
theorem dbCleanupLoop_preserves_files :
    ∀ (fuel : Nat) (st : CleanupState) (cutoff : Int),
      (CleanupService.dbCleanupLoop fuel st cutoff).1.files = st.files ∧
      (CleanupService.dbCleanupLoop fuel st cutoff).1.dirExists
        = st.dirExists := by
  intro fuel
  induction fuel with
  | zero => intro st cutoff; exact ⟨rfl, rfl⟩
  | succ fuel ih =>
    intro st cutoff
    simp only [CleanupService.dbCleanupLoop]
    by_cases hb : ((CleanupService.eligScans st cutoff).take
        CleanupService.batchSize).isEmpty = true
    · rw [if_pos hb]
      exact ⟨rfl, rfl⟩
    · rw [if_neg hb]
      exact ih _ cutoff

/-- Phase 1 never touches the filesystem components. -/
theorem cleanupDatabase_preserves_files (st : CleanupState) (cutoff : Int) :
    (CleanupService.cleanupDatabase st cutoff).1.files = st.files ∧
    (CleanupService.cleanupDatabase st cutoff).1.dirExists = st.dirExists := by
  simp only [CleanupService.cleanupDatabase]
  by_cases h0 : (CleanupService.eligScans st cutoff).length = 0
  · rw [if_pos h0]
    exact ⟨rfl, rfl⟩
  · rw [if_neg h0]
    exact dbCleanupLoop_preserves_files _ st cutoff

/-- Source `performCleanup`'s run record, written out via the phase
characterizations. -/
theorem performCleanupEffects_spec (retentionDays : Nat) (st : CleanupState)
    (now : Int) (hnd : (st.scans.map (fun s => s.id)).Nodup) :
    CleanupService.performCleanupEffects retentionDays st now
      = { state := (CleanupService.cleanupScreenshotFiles
            (CleanupService.dbCleanedState st
              (CleanupService.cutoffDate now retentionDays))).1,
          scansRemoved := (CleanupService.eligScans st
            (CleanupService.cutoffDate now retentionDays)).length,
          issuesRemoved := CleanupService.joinedIssueCount st
            (CleanupService.cutoffDate now retentionDays),
          filesRemoved := (CleanupService.cleanupScreenshotFiles
            (CleanupService.dbCleanedState st
              (CleanupService.cutoffDate now retentionDays))).2.1,
          orphanedFiles := (CleanupService.cleanupScreenshotFiles
            (CleanupService.dbCleanedState st
              (CleanupService.cutoffDate now retentionDays))).2.2 } := by
  obtain ⟨hdb, hn1, hn2⟩ :=
    cleanupDatabase_spec st (CleanupService.cutoffDate now retentionDays) hnd
  simp only [CleanupService.performCleanupEffects]
  rw [hdb, hn1, hn2]
  rfl

/-- Claim C5, counterexample.  The claim says every rule identifier — "including
empty or unrecognized shapes" — yields a non-empty URL list from the
generator of its scanner type.  The Axe variant's guard
`if (!ruleId) return []` returns the **empty** list for the empty rule
identifier, with no fallback URL. -/
theorem axe_getHelpUrls_empty_ruleId_is_nil :
    AxeRuleService.getHelpUrls "" = [] := rfl

/-- Claim C5, amended.  The HTMLCS generator returns a non-empty URL list for
every rule identifier (falling back to the generic techniques URL), and the
Axe generator returns a non-empty (singleton) list for every *non-empty*
rule identifier; the empty identifier is the single exception, where Axe
returns the empty list. -/
theorem getHelpUrls_nonempty_amended (ruleId : String) :
    HtmlcsRuleService.getHelpUrls ruleId ≠ [] ∧
    (ruleId ≠ "" → AxeRuleService.getHelpUrls ruleId ≠ []) := by
  constructor
  · by_cases h : (HtmlcsRuleService.generateHelpUrlsFromRuleId ruleId).length = 0
    · simp [HtmlcsRuleService.getHelpUrls, h]
    · simp only [HtmlcsRuleService.getHelpUrls, if_neg h]
      intro hnil
      exact h (by simp [hnil])
  · intro hr
    unfold AxeRuleService.getHelpUrls
    simp [hr]

/-- Witness for C5: the amended statement evaluated at the unrecognized
rule identifier `"zzz"`. -/
theorem getHelpUrls_nonempty_amended_witness :
    HtmlcsRuleService.getHelpUrls "zzz" ≠ [] ∧
    ("zzz" ≠ "" → AxeRuleService.getHelpUrls "zzz" ≠ []) :=
  getHelpUrls_nonempty_amended "zzz"

/-! ## Claim C1 — the rule allow-list never reaches the scanner -/

/-- Claim C1, code bug.  `CreateScanDto` documents that with `ruleIds` "only
the specified rules will be run and their results stored", and
`ScanService.create` passes `createScanDto.ruleIds` to
`addScanJob` — but `addScanJob` declares no such parameter and
`ScanJobData` has no such field, so the allow-list is silently dropped at
the queue boundary: the processor's `scanOptions` carry no rule list
(first conjunct), the HTMLCS scanner keeps an issue whose rule is outside
the requested allow-list (second conjunct), even though the allow-list
filter the code base provides for exactly this purpose
(`BaseAccessibilityScanner.filterIssuesByRules`) would have removed it
(third conjunct). -/
theorem ruleIds_dropped_at_queue_boundary :
    (ScanProcessor.buildScanOptions (ScanService.createJob 1 c1Dto)).ruleIds
        = none ∧
    HtmlcsAccessibilityScanner.scan
        (ScanProcessor.buildScanOptions (ScanService.createJob 1 c1Dto))
        (.ok [c1RawIssue]) (fun _ => none) true
      = .ok [{ ruleId := "image-alt",
               description := "Images must have alternate text",
               impact := IssueImpact.error, selector := some "img",
               context := some "<img>", screenshotFilename := none }] ∧
    BaseAccessibilityScanner.filterIssuesByRules [c1RawIssue] c1Dto.ruleIds
      = [] := by
  exact ⟨rfl, rfl, rfl⟩

/-! ## Claim C4 — status monotonicity -/

/-- Claim C4, counterexample.  The claim says a scan that has reached a
terminal status is never set back to RUNNING by processor status updates.
But `updateScanStatus` is an unconditional `UPDATE`, and `process` performs
`updateScanStatus(scanId, RUNNING)` as its first step of *every* attempt —
including a BullMQ retry of a scan already persisted as FAILED.  Starting
from a store where scan 1 is FAILED, the processor's own first write moves
it back to RUNNING (second conjunct), and the write sequence of the retry
attempt is RUNNING-then-FAILED (third conjunct). -/
theorem terminal_status_overwritten_by_retry :
    ScanProcessor.lookupStatus ⟨[(1, ScanStatus.failed)], []⟩ 1
        = some ScanStatus.failed ∧
    ScanProcessor.lookupStatus
        (ScanProcessor.updateScanStatus ⟨[(1, ScanStatus.failed)], []⟩ 1
          ScanStatus.running) 1
      = some ScanStatus.running ∧
    (ScanProcessor.process c4World ⟨[(1, ScanStatus.failed)], []⟩ c4Job).statusWrites
      = [ScanStatus.running, ScanStatus.failed] := by
  refine ⟨rfl, rfl, rfl⟩

/-! ## Processor lemmas shared by C2, C3 and C4 -/

/-- Source `saveIssues` only appends issue rows; the statuses table is untouched. -/
theorem saveIssues_statuses (persist : IssueEntity → Except String Unit)
    (scanId : Nat) (l : List IssueEntity) :
    ∀ db : ProcDB,
      (ScanProcessor.saveIssues persist db scanId l).1.statuses = db.statuses := by
  induction l with
  | nil => intro db; rfl
  | cons i rest ih =>
    intro db
    simp only [ScanProcessor.saveIssues]
    cases hp : persist i with
    | error e => rfl
    | ok u => exact ih _

/-- The success/error outcome of `saveIssues` depends only on the issue list
and the persistence oracle, not on the store it is run against. -/
theorem saveIssues_outcome_indep (persist : IssueEntity → Except String Unit)
    (scanId : Nat) (l : List IssueEntity) :
    ∀ db db' : ProcDB,
      (ScanProcessor.saveIssues persist db scanId l).2
        = (ScanProcessor.saveIssues persist db' scanId l).2 := by
  induction l with
  | nil => intro db db'; rfl
  | cons i rest ih =>
    intro db db'
    simp only [ScanProcessor.saveIssues]
    cases hp : persist i with
    | error e => rfl
    | ok u => exact ih _ _

/-- Source `performAccessibilityScan` never writes the statuses table. -/
theorem performAccessibilityScan_statuses (w : ScanWorld) (db : ProcDB)
    (job : ScanJobData) :
    (ScanProcessor.performAccessibilityScan w db job).1.statuses
      = db.statuses := by
  unfold ScanProcessor.performAccessibilityScan
  cases w.getBrowser with
  | error e => rfl
  | ok u =>
    cases ScanProcessor.scannerResult w job with
    | error e => rfl
    | ok issues => exact saveIssues_statuses w.persist job.scanId issues db

/-- The thrown-or-resolved outcome of `performAccessibilityScan` does not
depend on the store it is run against. -/
theorem performAccessibilityScan_outcome_indep (w : ScanWorld)
    (job : ScanJobData) (db db' : ProcDB) :
    (ScanProcessor.performAccessibilityScan w db job).2
      = (ScanProcessor.performAccessibilityScan w db' job).2 := by
  unfold ScanProcessor.performAccessibilityScan
  cases w.getBrowser with
  | error e => rfl
  | ok u =>
    cases ScanProcessor.scannerResult w job with
    | error e => rfl
    | ok issues => exact saveIssues_outcome_indep w.persist job.scanId issues db db'

/-- Looking up a scan right after `updateScanStatus` yields the written
status whenever the scan has a row at all. -/
theorem lookup_map_set (scanId : Nat) (st : ScanStatus)
    (l : List (Nat × ScanStatus)) :
    List.lookup scanId (l.map (fun p => if p.1 = scanId then (p.1, st) else p))
      = (List.lookup scanId l).map (fun _ => st) := by
  induction l with
  | nil => rfl
  | cons p t ih =>
    rcases p with ⟨k, v⟩
    simp only [List.map_cons]
    by_cases h : k = scanId
    · rw [if_pos (show (k, v).1 = scanId from h)]
      subst h
      simp [List.lookup, ih]
    · rw [if_neg (show ¬ (k, v).1 = scanId from h)]
      have hne : (scanId == k) = false := by
        simp only [beq_eq_false_iff_ne, ne_eq]
        exact fun he => h he.symm
      simp [List.lookup, hne, ih]

theorem lookupStatus_updateScanStatus (db : ProcDB) (scanId : Nat)
    (st : ScanStatus) :
    ScanProcessor.lookupStatus (ScanProcessor.updateScanStatus db scanId st)
        scanId
      = (ScanProcessor.lookupStatus db scanId).map (fun _ => st) := by
  unfold ScanProcessor.lookupStatus ScanProcessor.updateScanStatus
  exact lookup_map_set scanId st db.statuses

/-- Source `updateScanStatus` leaves the persisted issue rows unchanged. -/
theorem updateScanStatus_saved (db : ProcDB) (scanId : Nat)
    (st : ScanStatus) :
    (ScanProcessor.updateScanStatus db scanId st).saved = db.saved := rfl

/-! ## Claim C2 — failures persist FAILED and re-raise -/

/-- Claim C2.  For a scan with a stored row, whenever the scan work of one
attempt — browser acquisition, the scanner-engine run, or issue
persistence, i.e. anything `performAccessibilityScan` can throw — fails
with error `e`, `process` settles with exactly that error (re-raised to
BullMQ, never swallowed) and the stored status is FAILED; and after any
attempt whatsoever the stored status is never left at RUNNING. -/
theorem process_error_persists_failed_and_rethrows (w : ScanWorld)
    (db : ProcDB) (job : ScanJobData) (s : ScanStatus)
    (hs : ScanProcessor.lookupStatus db job.scanId = some s) :
    (∀ e : String,
      (ScanProcessor.performAccessibilityScan w db job).2 = .error e →
      (ScanProcessor.process w db job).outcome = .error e ∧
      ScanProcessor.lookupStatus (ScanProcessor.process w db job).db
          job.scanId
        = some ScanStatus.failed) ∧
    ScanProcessor.lookupStatus (ScanProcessor.process w db job).db job.scanId
      ≠ some ScanStatus.running := by
  have hrun : ScanProcessor.lookupStatus
      (ScanProcessor.updateScanStatus db job.scanId ScanStatus.running)
      job.scanId = some ScanStatus.running := by
    rw [lookupStatus_updateScanStatus, hs]; rfl
  rcases hp : ScanProcessor.performAccessibilityScan w
      (ScanProcessor.updateScanStatus db job.scanId ScanStatus.running) job
    with ⟨db2, r⟩
  have hdb2 : db2.statuses
      = (ScanProcessor.updateScanStatus db job.scanId
          ScanStatus.running).statuses := by
    have := performAccessibilityScan_statuses w
      (ScanProcessor.updateScanStatus db job.scanId ScanStatus.running) job
    rw [hp] at this
    exact this
  have hlook2 : ScanProcessor.lookupStatus db2 job.scanId
      = some ScanStatus.running := by
    unfold ScanProcessor.lookupStatus
    rw [hdb2]
    exact hrun
  have hindep : (ScanProcessor.performAccessibilityScan w db job).2 = r := by
    rw [performAccessibilityScan_outcome_indep w job db
      (ScanProcessor.updateScanStatus db job.scanId ScanStatus.running), hp]
  have hproc : ScanProcessor.process w db job
      = match (db2, r) with
        | (db2, .error e) =>
          { db := ScanProcessor.updateScanStatus db2 job.scanId
              ScanStatus.failed,
            statusWrites := [ScanStatus.running, ScanStatus.failed],
            outcome := .error e }
        | (db2, .ok _) =>
          { db := ScanProcessor.updateScanStatus db2 job.scanId
              ScanStatus.completed,
            statusWrites := [ScanStatus.running, ScanStatus.completed],
            outcome := .ok Unit.unit } := by
    unfold ScanProcessor.process
    rw [hp]
  cases r with
  | error e0 =>
    refine ⟨fun e he => ?_, ?_⟩
    · rw [hindep] at he
      injection he with hee
      subst hee
      constructor
      · rw [hproc]
      · rw [hproc]
        show ScanProcessor.lookupStatus
          (ScanProcessor.updateScanStatus db2 job.scanId ScanStatus.failed)
          job.scanId = some ScanStatus.failed
        rw [lookupStatus_updateScanStatus, hlook2]; rfl
    · rw [hproc]
      show ScanProcessor.lookupStatus
          (ScanProcessor.updateScanStatus db2 job.scanId ScanStatus.failed)
          job.scanId ≠ some ScanStatus.running
      rw [lookupStatus_updateScanStatus, hlook2]
      simp
  | ok u =>
    refine ⟨fun e he => ?_, ?_⟩
    · rw [hindep] at he
      exact absurd he (by simp)
    · rw [hproc]
      show ScanProcessor.lookupStatus
          (ScanProcessor.updateScanStatus db2 job.scanId ScanStatus.completed)
          job.scanId ≠ some ScanStatus.running
      rw [lookupStatus_updateScanStatus, hlook2]
      simp

/-- Witness for C2: an engine failure makes the attempt settle with the
re-thrown wrapped error and scan 1 is stored FAILED. -/
theorem process_error_witness :
    (ScanProcessor.process c2World c2Db c2Job).outcome
        = .error "Accessibility scan failed: net boom" ∧
    ScanProcessor.lookupStatus (ScanProcessor.process c2World c2Db c2Job).db
        c2Job.scanId
      = some ScanStatus.failed :=
  (process_error_persists_failed_and_rethrows c2World c2Db c2Job
      ScanStatus.pending rfl).1 "Accessibility scan failed: net boom" rfl

/-! ## Claim C3 — empty issue list completes -/

/-- Claim C3.  For a scan with a stored row, when the browser is available and
the selected scanner engine returns the empty issue list, the attempt
resolves successfully, persists no issue rows at all, and stores status
COMPLETED (not FAILED). -/
theorem process_empty_issue_list_completes (w : ScanWorld) (db : ProcDB)
    (job : ScanJobData) (s : ScanStatus)
    (hs : ScanProcessor.lookupStatus db job.scanId = some s)
    (hb : w.getBrowser = .ok Unit.unit)
    (hscan : ScanProcessor.scannerResult w job = .ok []) :
    (ScanProcessor.process w db job).outcome = .ok Unit.unit ∧
    (ScanProcessor.process w db job).db.saved = db.saved ∧
    ScanProcessor.lookupStatus (ScanProcessor.process w db job).db job.scanId
      = some ScanStatus.completed := by
  have hperf : ScanProcessor.performAccessibilityScan w
      (ScanProcessor.updateScanStatus db job.scanId ScanStatus.running) job
      = (ScanProcessor.updateScanStatus db job.scanId ScanStatus.running,
          .ok Unit.unit) := by
    unfold ScanProcessor.performAccessibilityScan
    rw [hb, hscan]
    rfl
  have hproc : ScanProcessor.process w db job
      = { db := ScanProcessor.updateScanStatus
            (ScanProcessor.updateScanStatus db job.scanId ScanStatus.running)
            job.scanId ScanStatus.completed,
          statusWrites := [ScanStatus.running, ScanStatus.completed],
          outcome := .ok Unit.unit } := by
    unfold ScanProcessor.process
    rw [hperf]
  refine ⟨by rw [hproc], by rw [hproc]; rfl, ?_⟩
  rw [hproc]
  show ScanProcessor.lookupStatus
      (ScanProcessor.updateScanStatus
        (ScanProcessor.updateScanStatus db job.scanId ScanStatus.running)
        job.scanId ScanStatus.completed) job.scanId
    = some ScanStatus.completed
  rw [lookupStatus_updateScanStatus, lookupStatus_updateScanStatus, hs]
  rfl

/-- Witness for C3: the clean-page scan completes with no new issue rows. -/
theorem process_empty_issue_list_witness :
    (ScanProcessor.process c3World c3Db c3Job).outcome = .ok Unit.unit ∧
    (ScanProcessor.process c3World c3Db c3Job).db.saved = c3Db.saved ∧
    ScanProcessor.lookupStatus (ScanProcessor.process c3World c3Db c3Job).db
        c3Job.scanId
      = some ScanStatus.completed :=
  process_empty_issue_list_completes c3World c3Db c3Job ScanStatus.pending
    rfl rfl rfl

/-- Claim C4, amended.  Within a single processing attempt the status writes
are monotone: every attempt writes RUNNING first and ends in exactly one
terminal status, COMPLETED or FAILED, which is also the stored status when
the attempt ends.  Across attempts, however, `updateScanStatus` is an
unconditional write, so a BullMQ retry of a FAILED scan overwrites the
terminal status back to RUNNING (the counterexample above); only the final
attempt's terminal status is authoritative. -/
theorem process_attempt_monotone (w : ScanWorld) (db : ProcDB)
    (job : ScanJobData) (s : ScanStatus)
    (hs : ScanProcessor.lookupStatus db job.scanId = some s) :
    ((ScanProcessor.process w db job).statusWrites
        = [ScanStatus.running, ScanStatus.completed] ∨
     (ScanProcessor.process w db job).statusWrites
        = [ScanStatus.running, ScanStatus.failed]) ∧
    (ScanProcessor.lookupStatus (ScanProcessor.process w db job).db job.scanId
        = some ScanStatus.completed ∨
     ScanProcessor.lookupStatus (ScanProcessor.process w db job).db job.scanId
        = some ScanStatus.failed) := by
  have hrun : ScanProcessor.lookupStatus
      (ScanProcessor.updateScanStatus db job.scanId ScanStatus.running)
      job.scanId = some ScanStatus.running := by
    rw [lookupStatus_updateScanStatus, hs]; rfl
  rcases hp : ScanProcessor.performAccessibilityScan w
      (ScanProcessor.updateScanStatus db job.scanId ScanStatus.running) job
    with ⟨db2, r⟩
  have hdb2 : db2.statuses
      = (ScanProcessor.updateScanStatus db job.scanId
          ScanStatus.running).statuses := by
    have := performAccessibilityScan_statuses w
      (ScanProcessor.updateScanStatus db job.scanId ScanStatus.running) job
    rw [hp] at this
    exact this
  have hlook2 : ScanProcessor.lookupStatus db2 job.scanId
      = some ScanStatus.running := by
    unfold ScanProcessor.lookupStatus
    rw [hdb2]
    exact hrun
  have hproc : ScanProcessor.process w db job
      = match (db2, r) with
        | (db2, .error e) =>
          { db := ScanProcessor.updateScanStatus db2 job.scanId
              ScanStatus.failed,
            statusWrites := [ScanStatus.running, ScanStatus.failed],
            outcome := .error e }
        | (db2, .ok _) =>
          { db := ScanProcessor.updateScanStatus db2 job.scanId
              ScanStatus.completed,
            statusWrites := [ScanStatus.running, ScanStatus.completed],
            outcome := .ok Unit.unit } := by
    unfold ScanProcessor.process
    rw [hp]
  cases r with
  | error e0 =>
    refine ⟨Or.inr (by rw [hproc]), Or.inr ?_⟩
    rw [hproc]
    show ScanProcessor.lookupStatus
        (ScanProcessor.updateScanStatus db2 job.scanId ScanStatus.failed)
        job.scanId = some ScanStatus.failed
    rw [lookupStatus_updateScanStatus, hlook2]; rfl
  | ok u =>
    refine ⟨Or.inl (by rw [hproc]), Or.inl ?_⟩
    rw [hproc]
    show ScanProcessor.lookupStatus
        (ScanProcessor.updateScanStatus db2 job.scanId ScanStatus.completed)
        job.scanId = some ScanStatus.completed
    rw [lookupStatus_updateScanStatus, hlook2]; rfl

/-- Witness for C4 (amended): the retried attempt on the FAILED scan 1
writes RUNNING then a terminal status and ends terminal. -/
theorem process_attempt_monotone_witness :
    ((ScanProcessor.process c4World ⟨[(1, ScanStatus.failed)], []⟩ c4Job).statusWrites
        = [ScanStatus.running, ScanStatus.completed] ∨
     (ScanProcessor.process c4World ⟨[(1, ScanStatus.failed)], []⟩ c4Job).statusWrites
        = [ScanStatus.running, ScanStatus.failed]) ∧
    (ScanProcessor.lookupStatus
        (ScanProcessor.process c4World ⟨[(1, ScanStatus.failed)], []⟩ c4Job).db
        c4Job.scanId = some ScanStatus.completed ∨
     ScanProcessor.lookupStatus
        (ScanProcessor.process c4World ⟨[(1, ScanStatus.failed)], []⟩ c4Job).db
        c4Job.scanId = some ScanStatus.failed) :=
  process_attempt_monotone c4World ⟨[(1, ScanStatus.failed)], []⟩ c4Job
    ScanStatus.failed rfl

/-! ## Claim C6 — screenshot failures are isolated per issue -/

/-- The screenshot loop is pointwise: each issue is paired with the capture
outcome of its selector (or nothing for a skipped selector). -/
theorem takeScreenshotsLoop_eq_map (capture : KayleIssue → Option String)
    (l : List KayleIssue) :
    HtmlcsAccessibilityScanner.takeScreenshotsLoop capture l
      = l.map (fun i =>
          (i, if HtmlcsAccessibilityScanner.skipSelector i.selector then none
              else capture i)) := by
  induction l with
  | nil => rfl
  | cons i t ih =>
    unfold HtmlcsAccessibilityScanner.takeScreenshotsLoop
    by_cases h : HtmlcsAccessibilityScanner.skipSelector i.selector
    · simp [h, ih]
    · simp [h, ih]

/-- Source `takeScreenshots` is the pointwise pairing with `shotOf`. -/
theorem takeScreenshots_eq_map (capture : KayleIssue → Option String)
    (pageOpen : Bool) (l : List KayleIssue) :
    HtmlcsAccessibilityScanner.takeScreenshots capture pageOpen l
      = l.map (fun i => (i, shotOf capture pageOpen i)) := by
  cases pageOpen with
  | false => simp [HtmlcsAccessibilityScanner.takeScreenshots, shotOf]
  | true =>
    simp [HtmlcsAccessibilityScanner.takeScreenshots,
      takeScreenshotsLoop_eq_map, shotOf]

/-- Conversion fails on the same errors for any two screenshot-augmented
lists carrying the same underlying issues: the thrown message depends only
on the severity tokens. -/
theorem convertLoop_error_congr :
    ∀ (l₁ l₂ : List (KayleIssue × Option String)),
      l₁.map Prod.fst = l₂.map Prod.fst →
      ∀ e : String,
        (HtmlcsAccessibilityScanner.convertLoop l₁ = .error e ↔
         HtmlcsAccessibilityScanner.convertLoop l₂ = .error e) := by
  intro l₁
  induction l₁ with
  | nil =>
    intro l₂ hmap e
    have : l₂ = [] := by
      cases l₂ with
      | nil => rfl
      | cons p t => simp at hmap
    subst this
    exact Iff.rfl
  | cons p t ih =>
    intro l₂ hmap e
    cases l₂ with
    | nil => simp at hmap
    | cons q u =>
      simp only [List.map_cons, List.cons.injEq] at hmap
      obtain ⟨hq, ht⟩ := hmap
      rcases p with ⟨i, s⟩
      rcases q with ⟨j, s'⟩
      simp only at hq
      subst hq
      simp only [HtmlcsAccessibilityScanner.convertLoop]
      cases hm : HtmlcsAccessibilityScanner.mapKayleTypeToImpact i.ktype with
      | error em => simp [hm]
      | ok im =>
        simp only [hm]
        cases hc : HtmlcsAccessibilityScanner.convertLoop t with
        | error e1 =>
          have := (ih u ht e1).mp hc
          cases hc' : HtmlcsAccessibilityScanner.convertLoop u with
          | error e2 =>
            rw [hc'] at this
            injection this with h12
            subst h12
            simp
          | ok o2 => rw [hc'] at this; exact absurd this (by simp)
        | ok o1 =>
          cases hc' : HtmlcsAccessibilityScanner.convertLoop u with
          | error e2 =>
            have := (ih u ht e2).mpr hc'
            rw [hc] at this
            exact absurd this (by simp)
          | ok o2 => simp

/-- When conversion succeeds, it succeeds pointwise: each raw issue yields
one persisted record with its rule id, and a missing screenshot stays
missing. -/
theorem convertLoop_ok_pointwise :
    ∀ (l : List (KayleIssue × Option String)) (out : List IssueEntity),
      HtmlcsAccessibilityScanner.convertLoop l = .ok out →
      List.Forall₂ (fun (p : KayleIssue × Option String) (o : IssueEntity) =>
        o.ruleId = p.1.code ∧ (p.2 = none → o.screenshotFilename = none))
        l out := by
  intro l
  induction l with
  | nil =>
    intro out h
    simp only [HtmlcsAccessibilityScanner.convertLoop] at h
    injection h with h
    subst h
    exact List.Forall₂.nil
  | cons p t ih =>
    intro out h
    rcases p with ⟨i, s⟩
    simp only [HtmlcsAccessibilityScanner.convertLoop] at h
    cases hm : HtmlcsAccessibilityScanner.mapKayleTypeToImpact i.ktype with
    | error em => rw [hm] at h; exact absurd h (by simp)
    | ok im =>
      rw [hm] at h
      cases hc : HtmlcsAccessibilityScanner.convertLoop t with
      | error e1 => rw [hc] at h; exact absurd h (by simp)
      | ok tail =>
        rw [hc] at h
        injection h with h
        subst h
        refine List.Forall₂.cons ⟨rfl, fun hsnone => ?_⟩ (ih tail hc)
        simp only at hsnone
        subst hsnone
        rfl

/-- Claim C6.  Per-issue screenshot capture is isolated: (i) the screenshot
pass keeps every issue, in order; (ii) a skipped (no/`html`/`body`
selector) or failed capture leaves that issue's screenshot unset;
(iii) the scan's failure behaviour — whether it throws and with which
message — is identical under any two capture oracles, so a screenshot
failure never fails the scan; and (iv) when the scan succeeds, the
returned list pairs the raw issues one-to-one, with `screenshotFilename`
unset for every issue whose capture was skipped or failed (also when the
page probe failed). -/
theorem screenshot_failures_isolated
    (capture capture' : KayleIssue → Option String) (pageOpen : Bool)
    (raw : List KayleIssue) (opts : ScanOptions) (e : String) :
    ((HtmlcsAccessibilityScanner.takeScreenshots capture pageOpen raw).map
        Prod.fst = raw) ∧
    (∀ p ∈ HtmlcsAccessibilityScanner.takeScreenshots capture pageOpen raw,
      (HtmlcsAccessibilityScanner.skipSelector p.1.selector = true ∨
        capture p.1 = none) → p.2 = none) ∧
    (HtmlcsAccessibilityScanner.scan opts (.ok raw) capture pageOpen
        = .error e ↔
     HtmlcsAccessibilityScanner.scan opts (.ok raw) capture' pageOpen
        = .error e) ∧
    (∀ out,
      HtmlcsAccessibilityScanner.scan opts (.ok raw) capture pageOpen
          = .ok out →
      List.Forall₂ (fun (i : KayleIssue) (o : IssueEntity) =>
        o.ruleId = i.code ∧
        ((HtmlcsAccessibilityScanner.skipSelector i.selector = true ∨
          capture i = none ∨ pageOpen = false) →
          o.screenshotFilename = none)) raw out) := by
  have hmf : ∀ (c : KayleIssue → Option String),
      (HtmlcsAccessibilityScanner.takeScreenshots c pageOpen raw).map
        Prod.fst = raw := by
    intro c
    rw [takeScreenshots_eq_map, List.map_map]
    have hc : (Prod.fst ∘ fun i : KayleIssue => (i, shotOf c pageOpen i))
        = fun i => i := rfl
    rw [hc]
    exact List.map_id raw
  have hscan : ∀ (c : KayleIssue → Option String),
      HtmlcsAccessibilityScanner.scan opts (.ok raw) c pageOpen
        = match HtmlcsAccessibilityScanner.convertKayleIssuesToIssues
            (HtmlcsAccessibilityScanner.takeScreenshots c pageOpen raw) with
          | .error e0 => .error ("Accessibility scan failed: " ++ e0)
          | .ok issues => .ok issues := fun _ => rfl
  refine ⟨hmf capture, ?_, ?_, ?_⟩
  · intro p hp hcond
    rw [takeScreenshots_eq_map] at hp
    rcases List.mem_map.mp hp with ⟨i, hi, hpi⟩
    subst hpi
    simp only [shotOf]
    cases pageOpen with
    | false => simp
    | true =>
      simp only [if_true]
      rcases hcond with hskip | hcap
      · simp only at hskip
        simp [hskip]
      · simp only at hcap
        by_cases hs : HtmlcsAccessibilityScanner.skipSelector i.selector

        · simp [hs]
        · simp [hs, hcap]
  · rw [hscan capture, hscan capture']
    have hcongr := convertLoop_error_congr
      (HtmlcsAccessibilityScanner.takeScreenshots capture pageOpen raw)
      (HtmlcsAccessibilityScanner.takeScreenshots capture' pageOpen raw)
      (by rw [hmf capture, hmf capture'])
    cases h1 : HtmlcsAccessibilityScanner.convertKayleIssuesToIssues
        (HtmlcsAccessibilityScanner.takeScreenshots capture pageOpen raw) with
    | error a =>
      have h2 : HtmlcsAccessibilityScanner.convertKayleIssuesToIssues
          (HtmlcsAccessibilityScanner.takeScreenshots capture' pageOpen raw)
          = .error a := (hcongr a).mp h1
      rw [h2]
    | ok o1 =>
      cases h2 : HtmlcsAccessibilityScanner.convertKayleIssuesToIssues
          (HtmlcsAccessibilityScanner.takeScreenshots capture' pageOpen raw) with
      | error b =>
        have hcl : HtmlcsAccessibilityScanner.convertLoop
            (HtmlcsAccessibilityScanner.takeScreenshots capture pageOpen raw)
            = .ok o1 := h1
        have := (hcongr b).mpr h2
        rw [hcl] at this
        exact absurd this (by simp)
      | ok o2 => simp
  · intro out hout
    rw [hscan capture] at hout
    cases h1 : HtmlcsAccessibilityScanner.convertKayleIssuesToIssues
        (HtmlcsAccessibilityScanner.takeScreenshots capture pageOpen raw) with
    | error a => rw [h1] at hout; exact absurd hout (by simp)
    | ok o1 =>
      rw [h1] at hout
      injection hout with hout
      subst hout
      have hfa := convertLoop_ok_pointwise _ _ h1
      rw [takeScreenshots_eq_map] at hfa
      rw [List.forall₂_map_left_iff] at hfa
      refine hfa.imp ?_
      intro i o hrel
      refine ⟨hrel.1, fun hcond => ?_⟩
      apply hrel.2
      simp only [shotOf]
      rcases hcond with hskip | hcap | hpo
      · cases pageOpen <;> simp [hskip]
      · cases pageOpen <;> simp [hcap]
      · simp [hpo]

/-- Witness for C6: with a capture oracle that fails on every element, the
issue is kept, its screenshot stays unset, and the scan's error behaviour
matches that under an all-succeeding oracle. -/
theorem screenshot_failures_isolated_witness :
    ((HtmlcsAccessibilityScanner.takeScreenshots (fun _ => none) true
        [c6Issue]).map Prod.fst = [c6Issue]) ∧
    ((c6Issue, (none : Option String)).2 = none) ∧
    (HtmlcsAccessibilityScanner.scan c6Opts (.ok [c6Issue]) (fun _ => none)
        true = .error "x" ↔
     HtmlcsAccessibilityScanner.scan c6Opts (.ok [c6Issue])
        (fun _ => some "shot.png") true = .error "x") :=
  ⟨(screenshot_failures_isolated (fun _ => none) (fun _ => some "shot.png")
      true [c6Issue] c6Opts "x").1,
   (screenshot_failures_isolated (fun _ => none) (fun _ => some "shot.png")
      true [c6Issue] c6Opts "x").2.1 (c6Issue, none) (by decide)
      (Or.inr rfl),
   (screenshot_failures_isolated (fun _ => none) (fun _ => some "shot.png")
      true [c6Issue] c6Opts "x").2.2.1⟩

/-! ## Claim C7 — what the cleanup entry point returns -/

/-- Claim C7, counterexample.  The claim says the cleanup entry point returns a
record of the four counts.  `performCleanup(): Promise<void>` resolves with
`undefined`: two runs whose statistics differ (one removes a scan, the
other finds nothing) resolve with the *same* value, so the resolved value
cannot carry the counts — they are only computed internally and logged. -/
theorem performCleanup_resolves_void :
    (CleanupService.performCleanup 30 c7State 2592000001).2
        = (CleanupService.performCleanup 30 cleanupEmptyState 2592000001).2 ∧
    (CleanupService.performCleanupEffects 30 c7State 2592000001).scansRemoved
        = 1 ∧
    (CleanupService.performCleanupEffects 30 cleanupEmptyState
        2592000001).scansRemoved = 0 := by
  exact ⟨rfl, rfl, rfl⟩

/-- Claim C7, amended.  `performCleanup` *computes* the four counts — phase 1
returns `{scansRemoved, issuesRemoved}` and phase 2
`{filesRemoved, orphanedFiles}` — and logs them, but the entry point's
promise resolves with void; only the store effects escape.  The counts it
logs are: eligible scans, their joined issues, and (twice) the orphaned
`*.png` files of the phase-1 state. -/
theorem performCleanup_logs_counts_returns_void (retentionDays : Nat)
    (st : CleanupState) (now : Int)
    (hnd : (st.scans.map (fun s => s.id)).Nodup)
    (hdir : st.dirExists = true) :
    CleanupService.performCleanup retentionDays st now
      = ((CleanupService.performCleanupEffects retentionDays st now).state,
          Unit.unit) ∧
    (CleanupService.performCleanupEffects retentionDays st now).scansRemoved
      = (CleanupService.eligScans st
          (CleanupService.cutoffDate now retentionDays)).length ∧
    (CleanupService.performCleanupEffects retentionDays st now).issuesRemoved
      = CleanupService.joinedIssueCount st
          (CleanupService.cutoffDate now retentionDays) ∧
    (CleanupService.performCleanupEffects retentionDays st now).filesRemoved
      = (CleanupService.orphanFiles (CleanupService.dbCleanedState st
          (CleanupService.cutoffDate now retentionDays))).length ∧
    (CleanupService.performCleanupEffects retentionDays st now).orphanedFiles
      = (CleanupService.orphanFiles (CleanupService.dbCleanedState st
          (CleanupService.cutoffDate now retentionDays))).length := by
  have hspec := performCleanupEffects_spec retentionDays st now hnd
  have hdir1 : (CleanupService.dbCleanedState st
      (CleanupService.cutoffDate now retentionDays)).dirExists = true := hdir
  obtain ⟨hfl, hc1, hc2⟩ := cleanupScreenshotFiles_spec
    (CleanupService.dbCleanedState st
      (CleanupService.cutoffDate now retentionDays)) hdir1
  refine ⟨rfl, ?_, ?_, ?_, ?_⟩
  · rw [hspec]
  · rw [hspec]
  · rw [hspec]
    exact hc1
  · rw [hspec]
    exact hc2

/-- Witness for C7 (amended): the counts of a concrete run. -/
theorem performCleanup_logs_counts_witness :
    CleanupService.performCleanup 0 c7WitnessState 5
      = ((CleanupService.performCleanupEffects 0 c7WitnessState 5).state,
          Unit.unit) ∧
    (CleanupService.performCleanupEffects 0 c7WitnessState 5).scansRemoved
      = (CleanupService.eligScans c7WitnessState
          (CleanupService.cutoffDate 5 0)).length ∧
    (CleanupService.performCleanupEffects 0 c7WitnessState 5).issuesRemoved
      = CleanupService.joinedIssueCount c7WitnessState
          (CleanupService.cutoffDate 5 0) ∧
    (CleanupService.performCleanupEffects 0 c7WitnessState 5).filesRemoved
      = (CleanupService.orphanFiles (CleanupService.dbCleanedState
          c7WitnessState (CleanupService.cutoffDate 5 0))).length ∧
    (CleanupService.performCleanupEffects 0 c7WitnessState 5).orphanedFiles
      = (CleanupService.orphanFiles (CleanupService.dbCleanedState
          c7WitnessState (CleanupService.cutoffDate 5 0))).length :=
  performCleanup_logs_counts_returns_void 0 c7WitnessState 5 (by decide) rfl

/-! ## Claim C8 — cutoff computation and eligibility -/

/-- Claim C8.  The cutoff is `now + 1 minute` when the retention period is
exactly zero, and `now` minus the retention period otherwise; a stored scan
survives the run exactly when its creation timestamp is *not* strictly
before the cutoff; hence with retention 0 every existing scan (one created
at or before `now`) is removed, and by cascade so are its issues. -/
theorem cleanup_cutoff_eligibility (retentionDays : Nat) (st : CleanupState)
    (now : Int) (hnd : (st.scans.map (fun s => s.id)).Nodup) :
    (retentionDays = 0 →
      CleanupService.cutoffDate now retentionDays = now + 60 * 1000) ∧
    (retentionDays ≠ 0 →
      CleanupService.cutoffDate now retentionDays
        = now - retentionDays * 86400000) ∧
    (∀ s ∈ st.scans,
      s ∈ (CleanupService.performCleanupEffects retentionDays st
            now).state.scans
        ↔ ¬ (s.createdAt < CleanupService.cutoffDate now retentionDays)) ∧
    (retentionDays = 0 → ∀ s ∈ st.scans, s.createdAt ≤ now →
      s ∉ (CleanupService.performCleanupEffects retentionDays st
            now).state.scans) ∧
    (retentionDays = 0 → ∀ i ∈ st.issues,
      (∃ s ∈ st.scans, s.id = i.scanId ∧ s.createdAt ≤ now) →
      i ∉ (CleanupService.performCleanupEffects retentionDays st
            now).state.issues) := by
  have hspec := performCleanupEffects_spec retentionDays st now hnd
  have hpres := cleanupScreenshotFiles_preserves
    (CleanupService.dbCleanedState st
      (CleanupService.cutoffDate now retentionDays))
  have hscans : (CleanupService.performCleanupEffects retentionDays st
      now).state.scans
      = st.scans.filter (fun s =>
          ! CleanupService.eligible
            (CleanupService.cutoffDate now retentionDays) s) := by
    rw [hspec]
    exact hpres.1
  have hissues : (CleanupService.performCleanupEffects retentionDays st
      now).state.issues
      = st.issues.filter (fun i =>
          ! (CleanupService.eligScans st
              (CleanupService.cutoffDate now retentionDays)).any
            (fun s => s.id == i.scanId)) := by
    rw [hspec]
    exact hpres.2.1
  have hmem : ∀ s ∈ st.scans,
      s ∈ (CleanupService.performCleanupEffects retentionDays st
            now).state.scans
        ↔ ¬ (s.createdAt < CleanupService.cutoffDate now retentionDays) := by
    intro s hs
    rw [hscans]
    constructor
    · intro hin
      have := (List.mem_filter.mp hin).2
      simp only [CleanupService.eligible, Bool.not_eq_true',
        decide_eq_false_iff_not] at this
      exact this
    · intro hlt
      refine List.mem_filter.mpr ⟨hs, ?_⟩
      simp only [CleanupService.eligible, Bool.not_eq_true',
        decide_eq_false_iff_not]
      exact hlt
  refine ⟨fun h0 => by simp [CleanupService.cutoffDate, h0],
          fun h0 => by simp [CleanupService.cutoffDate, h0],
          hmem, ?_, ?_⟩
  · intro h0 s hs hle hin
    have hcut : CleanupService.cutoffDate now retentionDays
        = now + 60 * 1000 := by simp [CleanupService.cutoffDate, h0]
    have hlt : s.createdAt < CleanupService.cutoffDate now retentionDays := by
      rw [hcut]; omega
    exact ((hmem s hs).mp hin) hlt
  · intro h0 i hi ⟨s, hs, hid, hle⟩ hin
    rw [hissues] at hin
    have hpred := (List.mem_filter.mp hin).2
    have hcut : CleanupService.cutoffDate now retentionDays
        = now + 60 * 1000 := by simp [CleanupService.cutoffDate, h0]
    have helig : CleanupService.eligible
        (CleanupService.cutoffDate now retentionDays) s = true := by
      simp only [CleanupService.eligible, decide_eq_true_eq]
      rw [hcut]; omega
    have hsE : s ∈ CleanupService.eligScans st
        (CleanupService.cutoffDate now retentionDays) :=
      List.mem_filter.mpr ⟨hs, helig⟩
    have hany : (CleanupService.eligScans st
        (CleanupService.cutoffDate now retentionDays)).any
          (fun x => x.id == i.scanId) = true := by
      refine List.any_eq_true.mpr ⟨s, hsE, ?_⟩
      exact beq_iff_eq.mpr hid
    rw [hany] at hpred
    exact Bool.false_ne_true hpred

/-- Witness for C8: with retention 0 the concrete month-old scan and its
issue are removed (test-mode cutoff `now + 1min`). -/
theorem cleanup_cutoff_eligibility_witness :
    CleanupService.cutoffDate 5 0 = 5 + 60 * 1000 ∧
    ({ id := 1, createdAt := 0 } : ScanRec)
      ∉ (CleanupService.performCleanupEffects 0 c7WitnessState 5).state.scans ∧
    ({ id := 1, scanId := 1, screenshotFilename := some "a.png" } : IssueRec)
      ∉ (CleanupService.performCleanupEffects 0 c7WitnessState
          5).state.issues :=
  ⟨(cleanup_cutoff_eligibility 0 c7WitnessState 5 (by decide)).1 rfl,
   (cleanup_cutoff_eligibility 0 c7WitnessState 5 (by decide)).2.2.2.1 rfl
     { id := 1, createdAt := 0 } (by decide) (by decide),
   (cleanup_cutoff_eligibility 0 c7WitnessState 5 (by decide)).2.2.2.2 rfl
     { id := 1, scanId := 1, screenshotFilename := some "a.png" } (by decide)
     ⟨{ id := 1, createdAt := 0 }, by decide, rfl, by decide⟩⟩

/-! ## Claim C9 — idempotence -/

/-- Claim C9.  Cleanup is idempotent: running it again immediately (same
clock reading, nothing created in between) removes zero scans, zero
issues and zero files, and finds zero orphans. -/
theorem cleanup_idempotent (retentionDays : Nat) (st : CleanupState)
    (now : Int) (hnd : (st.scans.map (fun s => s.id)).Nodup) :
    (CleanupService.performCleanupEffects retentionDays
        (CleanupService.performCleanupEffects retentionDays st now).state
        now).scansRemoved = 0 ∧
    (CleanupService.performCleanupEffects retentionDays
        (CleanupService.performCleanupEffects retentionDays st now).state
        now).issuesRemoved = 0 ∧
    (CleanupService.performCleanupEffects retentionDays
        (CleanupService.performCleanupEffects retentionDays st now).state
        now).filesRemoved = 0 ∧
    (CleanupService.performCleanupEffects retentionDays
        (CleanupService.performCleanupEffects retentionDays st now).state
        now).orphanedFiles = 0 := by
  have hspec1 := performCleanupEffects_spec retentionDays st now hnd
  set st1 := CleanupService.dbCleanedState st
    (CleanupService.cutoffDate now retentionDays) with hst1
  have hpres := cleanupScreenshotFiles_preserves st1
  set st2 := (CleanupService.cleanupScreenshotFiles st1).1 with hst2
  have hstate : (CleanupService.performCleanupEffects retentionDays st
      now).state = st2 := by rw [hspec1]
  have hscans1 : st1.scans = st.scans.filter (fun s =>
      ! CleanupService.eligible
        (CleanupService.cutoffDate now retentionDays) s) := rfl
  have hnd2 : (st2.scans.map (fun s => s.id)).Nodup := by
    rw [hpres.1, hscans1]
    exact ((List.filter_sublist st.scans).map _).nodup hnd
  have helig2 : CleanupService.eligScans st2
      (CleanupService.cutoffDate now retentionDays) = [] := by
    show st2.scans.filter (CleanupService.eligible
      (CleanupService.cutoffDate now retentionDays)) = []
    rw [hpres.1, hscans1]
    refine List.filter_eq_nil_iff.mpr (fun s hs => ?_)
    have h2 := (List.mem_filter.mp hs).2
    simp only [Bool.not_eq_true'] at h2
    simp [h2]
  have hspec2 := performCleanupEffects_spec retentionDays st2 now hnd2
  have hst3 : CleanupService.dbCleanedState st2
      (CleanupService.cutoffDate now retentionDays) = st2 := by
    have h1 : st2.scans.filter (fun s =>
        ! CleanupService.eligible
          (CleanupService.cutoffDate now retentionDays) s) = st2.scans :=
      filter_not_of_filter_eq_nil _ _ helig2
    have h2 : st2.issues.filter (fun i =>
        ! (CleanupService.eligScans st2
            (CleanupService.cutoffDate now retentionDays)).any
          (fun s => s.id == i.scanId)) = st2.issues := by
      rw [helig2]
      exact List.filter_eq_self.mpr (fun _ _ => rfl)
    rw [CleanupService.dbCleanedState, h1, h2]
  have hjc2 : CleanupService.joinedIssueCount st2
      (CleanupService.cutoffDate now retentionDays) = 0 := by
    simp [CleanupService.joinedIssueCount, helig2]
  have hfiles2 : (CleanupService.cleanupScreenshotFiles st2).2.1 = 0 ∧
      (CleanupService.cleanupScreenshotFiles st2).2.2 = 0 := by
    by_cases hd : st2.dirExists = true
    · have hdirst1 : st1.dirExists = true := by
        rw [← hpres.2.2]; exact hd
      obtain ⟨hfl1, _, _⟩ := cleanupScreenshotFiles_spec st1 hdirst1
      obtain ⟨_, hc1, hc2⟩ := cleanupScreenshotFiles_spec st2 hd
      have horph2 : CleanupService.orphanFiles st2 = [] := by
        refine List.filter_eq_nil_iff.mpr (fun f hf => ?_)
        have hfp := List.mem_filter.mp hf
        obtain ⟨hf2, hpng⟩ := hfp
        rw [hfl1] at hf2
        obtain ⟨hf1, hnotorb⟩ := List.mem_filter.mp hf2
        intro href
        have hiss : st2.issues = st1.issues := hpres.2.1
        rw [hiss] at href
        simp only [Bool.not_eq_true'] at href
        have hforb : f ∈ CleanupService.orphanFiles st1 := by
          refine List.mem_filter.mpr ⟨List.mem_filter.mpr ⟨hf1, hpng⟩, ?_⟩
          simp [href]
        have hcont : (CleanupService.orphanFiles st1).contains f = true :=
          List.elem_eq_true_of_mem hforb
        rw [hcont] at hnotorb
        exact Bool.false_ne_true hnotorb
      rw [hc1, hc2, horph2]
      exact ⟨rfl, rfl⟩
    · have hid : CleanupService.cleanupScreenshotFiles st2 = (st2, 0, 0) := by
        simp only [CleanupService.cleanupScreenshotFiles,
          if_pos (show ¬ st2.dirExists = true from hd)]
      rw [hid]
      exact ⟨rfl, rfl⟩
  rw [hstate, hspec2, hst3]
  exact ⟨by rw [helig2]; rfl, hjc2, hfiles2.1, hfiles2.2⟩

/-- Witness for C9: the second run on the concrete store removes nothing. -/
theorem cleanup_idempotent_witness :
    (CleanupService.performCleanupEffects 0
        (CleanupService.performCleanupEffects 0 c7WitnessState 5).state
        5).scansRemoved = 0 ∧
    (CleanupService.performCleanupEffects 0
        (CleanupService.performCleanupEffects 0 c7WitnessState 5).state
        5).issuesRemoved = 0 ∧
    (CleanupService.performCleanupEffects 0
        (CleanupService.performCleanupEffects 0 c7WitnessState 5).state
        5).filesRemoved = 0 ∧
    (CleanupService.performCleanupEffects 0
        (CleanupService.performCleanupEffects 0 c7WitnessState 5).state
        5).orphanedFiles = 0 :=
  cleanup_idempotent 0 c7WitnessState 5 (by decide)

/-! ## Claim C10 — only `*.png` files are considered -/

/-- Claim C10.  The file pass only ever considers `*.png` names: any file
without that suffix survives every cleanup run untouched, and the orphan
count never exceeds the number of `*.png` files in the directory. -/
theorem cleanup_file_pass_only_png (retentionDays : Nat) (st : CleanupState)
    (now : Int) :
    (∀ f ∈ st.files, jsEndsWith f ".png" = false →
      f ∈ (CleanupService.performCleanupEffects retentionDays st
            now).state.files) ∧
    (CleanupService.performCleanupEffects retentionDays st
        now).orphanedFiles
      ≤ (st.files.filter (fun f => jsEndsWith f ".png")).length := by
  have hdbf := cleanupDatabase_preserves_files st
    (CleanupService.cutoffDate now retentionDays)
  set st1 := (CleanupService.cleanupDatabase st
    (CleanupService.cutoffDate now retentionDays)).1 with hst1
  have hstate : (CleanupService.performCleanupEffects retentionDays st
      now).state = (CleanupService.cleanupScreenshotFiles st1).1 := rfl
  have horb : (CleanupService.performCleanupEffects retentionDays st
      now).orphanedFiles
      = (CleanupService.cleanupScreenshotFiles st1).2.2 := rfl
  by_cases hd : st1.dirExists = true
  · obtain ⟨hfl, hc1, hc2⟩ := cleanupScreenshotFiles_spec st1 hd
    constructor
    · intro f hf hnp
      rw [hstate, hfl]
      refine List.mem_filter.mpr ⟨by rw [hdbf.1]; exact hf, ?_⟩
      have hnotin : f ∉ CleanupService.orphanFiles st1 := by
        intro hin
        have hpng := (List.mem_filter.mp ((List.mem_filter.mp hin).1)).2
        rw [hnp] at hpng
        exact Bool.false_ne_true hpng
      have hcf : (CleanupService.orphanFiles st1).contains f = false :=
        Bool.eq_false_iff.mpr (fun hc => hnotin (List.elem_iff.mp hc))
      simp [hcf, hnotin]
    · rw [horb, hc2]
      have h1 : (CleanupService.orphanFiles st1).length
          ≤ (CleanupService.pngFiles st1).length :=
        List.length_filter_le _ _
      have h2 : CleanupService.pngFiles st1
          = st.files.filter (fun f => jsEndsWith f ".png") := by
        rw [CleanupService.pngFiles, hdbf.1]
      rw [h2] at h1
      exact h1
  · have hid : CleanupService.cleanupScreenshotFiles st1 = (st1, 0, 0) := by
      simp only [CleanupService.cleanupScreenshotFiles,
        if_pos (show ¬ st1.dirExists = true from hd)]
    constructor
    · intro f hf _
      rw [hstate, hid]
      show f ∈ st1.files
      rw [hdbf.1]
      exact hf
    · rw [horb, hid]
      exact Nat.zero_le _

/-- Witness for C10: the concrete non-png file `c.txt` survives the run
that deletes both png files, and the orphan count is within the png
count. -/
theorem cleanup_file_pass_only_png_witness :
    "c.txt" ∈ (CleanupService.performCleanupEffects 0 c7WitnessState
        5).state.files ∧
    (CleanupService.performCleanupEffects 0 c7WitnessState 5).orphanedFiles
      ≤ (c7WitnessState.files.filter
          (fun f => jsEndsWith f ".png")).length :=
  ⟨(cleanup_file_pass_only_png 0 c7WitnessState 5).1 "c.txt" (by decide)
      (by decide),
   (cleanup_file_pass_only_png 0 c7WitnessState 5).2⟩
